import Mathlib

/-!
Verification of the Recall portfolio-rebalancing engine
(`mastra/src/mastra/workflows/recall-portfolio-rebalancing` and
`mastra/src/mastra/tools/recall-trading`).

JavaScript numbers are modelled as rationals (`ℚ`); JS objects keyed by
symbol strings are modelled as association lists in insertion order (JS
object keys are unique, so first-match lookup agrees with JS field access).
`record[key] || d` is modelled by `jsOrD`, which also maps a present value
of `0` to the default, exactly as JS truthiness does.
-/

/-- JS `v || d` for an optional numeric field: a missing value or a present
value equal to `0` (falsy) yields the default `d`. -/
def jsOrD (v : Option ℚ) (d : ℚ) : ℚ :=
  match v with
  | none => d
  | some x => if x = 0 then d else x

/-- JS object field access `m[k]`: the value at the first (unique) matching
key, if any. -/
def lookupQ (m : List (String × ℚ)) (k : String) : Option ℚ :=
  (m.find? (fun p => p.1 == k)).map (·.2)

/-- JS `m[k] || d`. -/
def lookupD (m : List (String × ℚ)) (k : String) (d : ℚ) : ℚ :=
  jsOrD (lookupQ m k) d

/-- `prices.prices[symbol] || 0`: a missing (or zero) price counts as `0`. -/
def priceOf (prices : List (String × ℚ)) (s : String) : ℚ :=
  lookupD prices s 0

theorem lookupD_zero_eq_getD (m : List (String × ℚ)) (k : String) :
    lookupD m k 0 = (lookupQ m k).getD 0 := by
  unfold lookupD jsOrD
  cases lookupQ m k with
  | none => rfl
  | some x => simp only [Option.getD_some]; split <;> simp_all

/-- Stable insertion (descending by `key`): the new element passes every
element whose key is `≥` its own, so elements with equal keys keep their
original relative order — the behaviour of JS `Array.prototype.sort` with
comparator `(a, b) => key b - key a`, which is specified to be stable. -/
def insertDescBy {α : Type} (key : α → ℚ) (e : α) : List α → List α
  | [] => [e]
  | x :: xs => if key x < key e then e :: x :: xs else x :: insertDescBy key e xs

/-- Stable sort, descending by `key` (JS `.sort((a, b) => key b - key a)`). -/
def sortDescBy {α : Type} (key : α → ℚ) (l : List α) : List α :=
  l.foldl (fun acc e => insertDescBy key e acc) []

theorem insertDescBy_perm {α : Type} (key : α → ℚ) (e : α) (l : List α) :
    (insertDescBy key e l).Perm (e :: l) := by
  induction l with
  | nil => exact List.Perm.refl _
  | cons x xs ih =>
    simp only [insertDescBy]
    split
    · exact List.Perm.refl _
    · exact (ih.cons x).trans (List.Perm.swap e x xs)

theorem sortDescBy_perm {α : Type} (key : α → ℚ) (l : List α) :
    (sortDescBy key l).Perm l := by
  suffices h : ∀ acc : List α,
      (l.foldl (fun acc e => insertDescBy key e acc) acc).Perm (l ++ acc) by
    simpa using h []
  induction l with
  | nil => intro acc; simp
  | cons x xs ih =>
    intro acc
    simp only [List.foldl_cons, List.cons_append]
    refine (ih _).trans ?_
    refine (List.Perm.append_left xs (insertDescBy_perm key x acc)).trans ?_
    exact List.perm_middle

theorem insertDescBy_pairwise {α : Type} (key : α → ℚ) (e : α) (l : List α)
    (h : l.Pairwise (fun a b => key b ≤ key a)) :
    (insertDescBy key e l).Pairwise (fun a b => key b ≤ key a) := by
  induction l with
  | nil => simp [insertDescBy]
  | cons x xs ih =>
    rcases List.pairwise_cons.mp h with ⟨hx, hxs⟩
    simp only [insertDescBy]
    split
    · rename_i hlt
      refine List.pairwise_cons.mpr ⟨?_, h⟩
      intro y hy
      rcases List.mem_cons.mp hy with rfl | hy
      · exact le_of_lt hlt
      · exact (hx y hy).trans (le_of_lt hlt)
    · rename_i hnlt
      refine List.pairwise_cons.mpr ⟨?_, ih hxs⟩
      intro y hy
      have hy' : y ∈ e :: xs := (insertDescBy_perm key e xs).mem_iff.mp hy
      rcases List.mem_cons.mp hy' with rfl | hy'
      · exact le_of_not_lt hnlt
      · exact hx y hy'

theorem sortDescBy_pairwise {α : Type} (key : α → ℚ) (l : List α) :
    (sortDescBy key l).Pairwise (fun a b => key b ≤ key a) := by
  suffices h : ∀ acc : List α, acc.Pairwise (fun a b => key b ≤ key a) →
      (l.foldl (fun acc e => insertDescBy key e acc) acc).Pairwise
        (fun a b => key b ≤ key a) by
    exact h [] (List.Pairwise.nil)
  induction l with
  | nil => intro acc hacc; simpa using hacc
  | cons x xs ih =>
    intro acc hacc
    exact ih _ (insertDescBy_pairwise key x acc hacc)

/-- The `action` field of a planned trade (`"buy" | "sell"`). -/
inductive TradeAction
  | buy
  | sell
deriving DecidableEq, Repr

/-- One entry of `portfolio.balances` (the fields the rebalancing code
reads; `id`, `agentId` and the timestamps are never consulted). -/
structure Balance where
  tokenAddress : String
  amount : ℚ
  specificChain : String
  symbol : String
  chain : String
deriving DecidableEq, Repr

/-- `TradeParams` from `recall-portfolio-rebalancing/types.ts`: one entry of
a rebalancing plan. -/
structure TradeParams where
  action : TradeAction
  symbol : String
  currentAmount : ℚ
  targetAmount : ℚ
  differenceAmount : ℚ
  differenceValueUSD : ℚ
  priority : ℚ
  preferredChain : String
deriving DecidableEq, Repr

/-- `SubTradeParams`: a `TradeParams` tagged with its position in a split. -/
structure SubTradeParams extends TradeParams where
  subTradeIndex : ℕ
  totalSubTrades : ℕ
deriving DecidableEq, Repr

/-- `MAX_TRADE_SIZE_PERCENT = 0.25` from `constants.ts`. -/
def MAX_TRADE_SIZE_PERCENT : ℚ := 1 / 4

/-- `SUB_TRADE_DELAY_MS = 3000` from `constants.ts`. -/
def SUB_TRADE_DELAY_MS : ℕ := 3000

/-- `splitTradeIntoSubTrades` from
`recall-portfolio-rebalancing/utils.ts` lines 25-106.  The two guard
conditions `!x || x <= 0` on a JS number are exactly `x ≤ 0` over `ℚ`
(`!x` is `x = 0`).  `Math.ceil` agrees with `Nat.ceil` here because the
split branch only runs when `differenceValueUSD / maxTradeValueUSD > 1`. -/
def splitTradeIntoSubTrades (trade : TradeParams)
    (totalPortfolioValueUSD : ℚ)
    (maxTradePercent : ℚ := MAX_TRADE_SIZE_PERCENT) : List SubTradeParams :=
  if totalPortfolioValueUSD ≤ 0 ∨ maxTradePercent ≤ 0 then
    [{ trade with subTradeIndex := 1, totalSubTrades := 1 }]
  else
    let maxTradeValueUSD := totalPortfolioValueUSD * maxTradePercent
    if maxTradeValueUSD ≤ 0 ∨ trade.differenceValueUSD ≤ 0 then
      [{ trade with subTradeIndex := 1, totalSubTrades := 1 }]
    else if trade.differenceValueUSD ≤ maxTradeValueUSD then
      [{ trade with subTradeIndex := 1, totalSubTrades := 1 }]
    else
      let numberOfSubTrades :=
        max 1 (Nat.ceil (trade.differenceValueUSD / maxTradeValueUSD))
      let subTradeValueUSD := trade.differenceValueUSD / numberOfSubTrades
      let subTradeAmount := trade.differenceAmount / numberOfSubTrades
      (List.range numberOfSubTrades).map fun i =>
        { trade with
            differenceAmount := subTradeAmount
            differenceValueUSD := subTradeValueUSD
            subTradeIndex := i + 1
            totalSubTrades := numberOfSubTrades }

theorem splitTrade_ceil_pos (trade : TradeParams) (total pct : ℚ)
    (htotal : 0 < total) (hpct : 0 < pct)
    (hbig : total * pct < trade.differenceValueUSD) :
    2 ≤ Nat.ceil (trade.differenceValueUSD / (total * pct)) := by
  have hden : 0 < total * pct := mul_pos htotal hpct
  have hgt : (1 : ℚ) < trade.differenceValueUSD / (total * pct) :=
    (one_lt_div hden).mpr hbig
  have := Nat.lt_ceil.mpr (by exact_mod_cast hgt : ((1 : ℕ) : ℚ) <
    trade.differenceValueUSD / (total * pct))
  omega

theorem splitTrade_eq_single (trade : TradeParams) (total pct : ℚ)
    (h : total ≤ 0 ∨ pct ≤ 0 ∨ trade.differenceValueUSD ≤ total * pct) :
    splitTradeIntoSubTrades trade total pct =
      [{ trade with subTradeIndex := 1, totalSubTrades := 1 }] := by
  unfold splitTradeIntoSubTrades
  rcases h with h | h | h
  · rw [if_pos (Or.inl h)]
  · rw [if_pos (Or.inr h)]
  · by_cases h1 : total ≤ 0 ∨ pct ≤ 0
    · rw [if_pos h1]
    · rw [if_neg h1]
      push_neg at h1
      by_cases h2 : total * pct ≤ 0 ∨ trade.differenceValueUSD ≤ 0
      · simp only [if_pos h2]
      · simp only [if_neg h2, if_pos h]

theorem splitTrade_eq_range (trade : TradeParams) (total pct : ℚ)
    (h1 : 0 < total) (h2 : 0 < pct)
    (h3 : total * pct < trade.differenceValueUSD) :
    splitTradeIntoSubTrades trade total pct =
      (List.range (Nat.ceil (trade.differenceValueUSD / (total * pct)))).map
        (fun i =>
          { trade with
              differenceAmount := trade.differenceAmount /
                (Nat.ceil (trade.differenceValueUSD / (total * pct)) : ℚ)
              differenceValueUSD := trade.differenceValueUSD /
                (Nat.ceil (trade.differenceValueUSD / (total * pct)) : ℚ)
              subTradeIndex := i + 1
              totalSubTrades :=
                Nat.ceil (trade.differenceValueUSD / (total * pct)) }) := by
  have hmax : 0 < total * pct := mul_pos h1 h2
  have hdiff : 0 < trade.differenceValueUSD := hmax.trans h3
  have hceil := splitTrade_ceil_pos trade total pct h1 h2 h3
  have hg1 : ¬(total ≤ 0 ∨ pct ≤ 0) := by push_neg; exact ⟨h1, h2⟩
  have hg2 : ¬(total * pct ≤ 0 ∨ trade.differenceValueUSD ≤ 0) := by
    push_neg; exact ⟨hmax, hdiff⟩
  unfold splitTradeIntoSubTrades
  rw [if_neg hg1]
  simp only [if_neg hg2, if_neg (not_le.mpr h3)]
  have hmaxeq : max 1 (Nat.ceil (trade.differenceValueUSD / (total * pct))) =
      Nat.ceil (trade.differenceValueUSD / (total * pct)) :=
    Nat.max_eq_right (by omega)
  rw [hmaxeq]

/-- C1: `splitTradeIntoSubTrades` returns a single SubTrade (index 1 of 1)
whenever the portfolio value or the trade-fraction cap is non-positive or
the trade value is at most `totalPortfolioValueUSD * maxTradeFraction`;
otherwise it returns `n = ceil(value / (total * fraction))` sub-trades,
each carrying `differenceAmount / n` and `differenceValueUSD / n` and
tagged with its 1-based index out of `n`; the result is never empty. -/
theorem C1_splitTradeIntoSubTrades_spec (trade : TradeParams) (total pct : ℚ) :
    (total ≤ 0 ∨ pct ≤ 0 ∨ trade.differenceValueUSD ≤ total * pct →
      splitTradeIntoSubTrades trade total pct =
        [{ trade with subTradeIndex := 1, totalSubTrades := 1 }]) ∧
    (0 < total → 0 < pct → total * pct < trade.differenceValueUSD →
      (splitTradeIntoSubTrades trade total pct).length =
        Nat.ceil (trade.differenceValueUSD / (total * pct)) ∧
      ∀ i (h : i < (splitTradeIntoSubTrades trade total pct).length),
        (splitTradeIntoSubTrades trade total pct).get ⟨i, h⟩ =
          { trade with
              differenceAmount := trade.differenceAmount /
                (Nat.ceil (trade.differenceValueUSD / (total * pct)) : ℚ)
              differenceValueUSD := trade.differenceValueUSD /
                (Nat.ceil (trade.differenceValueUSD / (total * pct)) : ℚ)
              subTradeIndex := i + 1
              totalSubTrades :=
                Nat.ceil (trade.differenceValueUSD / (total * pct)) }) ∧
    splitTradeIntoSubTrades trade total pct ≠ [] := by
  refine ⟨splitTrade_eq_single trade total pct, ?_, ?_⟩
  · intro h1 h2 h3
    have heq := splitTrade_eq_range trade total pct h1 h2 h3
    constructor
    · rw [heq]; simp
    · intro i h
      simp only [heq, List.get_eq_getElem, List.getElem_map, List.getElem_range]
  · by_cases h1 : 0 < total
    · by_cases h2 : 0 < pct
      · by_cases h3 : total * pct < trade.differenceValueUSD
        · rw [splitTrade_eq_range trade total pct h1 h2 h3]
          have := splitTrade_ceil_pos trade total pct h1 h2 h3
          simp only [ne_eq, List.map_eq_nil_iff, List.range_eq_nil]
          omega
        · rw [splitTrade_eq_single trade total pct
            (Or.inr (Or.inr (not_lt.mp h3)))]
          simp
      · rw [splitTrade_eq_single trade total pct (Or.inr (Or.inl (not_lt.mp h2)))]
        simp
    · rw [splitTrade_eq_single trade total pct (Or.inl (not_lt.mp h1))]
      simp

/-- The $40,000 sell used in the specification's oversized-trade scenario. -/
def tradeC1 : TradeParams :=
  { action := .sell
    symbol := "WETH"
    currentAmount := 40
    targetAmount := 24
    differenceAmount := 16
    differenceValueUSD := 40000
    priority := 40
    preferredChain := "eth" }

/-- Witness for C1: a $40,000 trade against a $100,000 portfolio with
`maxTradeFraction = 0.25` yields exactly 2 sub-trades of $20,000 each, and
with a cap of `2` (threshold $200,000) the same trade stays whole. -/
theorem C1_splitTradeIntoSubTrades_spec_witness :
    (splitTradeIntoSubTrades tradeC1 100000 (1 / 4)).length = 2 ∧
    splitTradeIntoSubTrades tradeC1 100000 (1 / 4) =
      [{ tradeC1 with
           differenceAmount := 8, differenceValueUSD := 20000,
           subTradeIndex := 1, totalSubTrades := 2 },
       { tradeC1 with
           differenceAmount := 8, differenceValueUSD := 20000,
           subTradeIndex := 2, totalSubTrades := 2 }] ∧
    splitTradeIntoSubTrades tradeC1 100000 2 =
      [{ tradeC1 with subTradeIndex := 1, totalSubTrades := 1 }] := by
  have hceil : Nat.ceil ((8 : ℚ) / 5) = 2 := by
    rw [Nat.ceil_eq_iff] <;> norm_num
  have h := (C1_splitTradeIntoSubTrades_spec tradeC1 100000 (1 / 4)).2.1
    (by norm_num) (by norm_num) (by norm_num [tradeC1])
  refine ⟨?_, ?_, ?_⟩
  · rw [h.1]; norm_num [tradeC1, hceil]
  · rw [splitTrade_eq_range tradeC1 100000 (1 / 4) (by norm_num) (by norm_num)
      (by norm_num [tradeC1])]
    norm_num [tradeC1, hceil, List.range_succ]
  · exact (C1_splitTradeIntoSubTrades_spec tradeC1 100000 2).1
      (Or.inr (Or.inr (by norm_num [tradeC1])))

/-- C2: every split conserves the original trade's `differenceAmount` and
`differenceValueUSD` exactly (the rational model has no rounding), all
sub-trades of one split are equal in amount and in value, and a trade whose
value is at or under `totalPortfolioValueUSD * maxTradeFraction` splits
into exactly one sub-trade. -/
theorem C2_split_conservation (trade : TradeParams) (total pct : ℚ) :
    ((splitTradeIntoSubTrades trade total pct).map
        (fun s => s.differenceAmount)).sum = trade.differenceAmount ∧
    ((splitTradeIntoSubTrades trade total pct).map
        (fun s => s.differenceValueUSD)).sum = trade.differenceValueUSD ∧
    (∀ a ∈ splitTradeIntoSubTrades trade total pct,
      ∀ b ∈ splitTradeIntoSubTrades trade total pct,
        a.differenceAmount = b.differenceAmount ∧
        a.differenceValueUSD = b.differenceValueUSD) ∧
    (trade.differenceValueUSD ≤ total * pct →
      (splitTradeIntoSubTrades trade total pct).length = 1) := by
  by_cases hsingle : total ≤ 0 ∨ pct ≤ 0 ∨ trade.differenceValueUSD ≤ total * pct
  · rw [splitTrade_eq_single trade total pct hsingle]
    refine ⟨by simp, by simp, ?_, fun _ => rfl⟩
    intro a ha b hb
    rw [List.mem_singleton] at ha hb
    rw [ha, hb]
    exact ⟨rfl, rfl⟩
  · push_neg at hsingle
    obtain ⟨h1, h2, h3⟩ := hsingle
    have hn := splitTrade_ceil_pos trade total pct h1 h2 h3
    have hcast : ((Nat.ceil (trade.differenceValueUSD / (total * pct)) : ℕ) : ℚ) ≠ 0 := by
      exact_mod_cast (by omega : Nat.ceil (trade.differenceValueUSD / (total * pct)) ≠ 0)
    rw [splitTrade_eq_range trade total pct h1 h2 h3]
    refine ⟨?_, ?_, ?_, ?_⟩
    · rw [List.map_map]
      have : ((fun s : SubTradeParams => s.differenceAmount) ∘ fun i : ℕ =>
          ({ trade with
              differenceAmount := trade.differenceAmount /
                (Nat.ceil (trade.differenceValueUSD / (total * pct)) : ℚ)
              differenceValueUSD := trade.differenceValueUSD /
                (Nat.ceil (trade.differenceValueUSD / (total * pct)) : ℚ)
              subTradeIndex := i + 1
              totalSubTrades :=
                Nat.ceil (trade.differenceValueUSD / (total * pct)) } :
            SubTradeParams)) = fun _ : ℕ =>
          trade.differenceAmount /
            (Nat.ceil (trade.differenceValueUSD / (total * pct)) : ℚ) := rfl
      rw [this, List.map_const', List.sum_replicate, List.length_range,
        nsmul_eq_mul, mul_div_cancel₀ _ hcast]
    · rw [List.map_map]
      have : ((fun s : SubTradeParams => s.differenceValueUSD) ∘ fun i : ℕ =>
          ({ trade with
              differenceAmount := trade.differenceAmount /
                (Nat.ceil (trade.differenceValueUSD / (total * pct)) : ℚ)
              differenceValueUSD := trade.differenceValueUSD /
                (Nat.ceil (trade.differenceValueUSD / (total * pct)) : ℚ)
              subTradeIndex := i + 1
              totalSubTrades :=
                Nat.ceil (trade.differenceValueUSD / (total * pct)) } :
            SubTradeParams)) = fun _ : ℕ =>
          trade.differenceValueUSD /
            (Nat.ceil (trade.differenceValueUSD / (total * pct)) : ℚ) := rfl
      rw [this, List.map_const', List.sum_replicate, List.length_range,
        nsmul_eq_mul, mul_div_cancel₀ _ hcast]
    · intro a ha b hb
      rw [List.mem_map] at ha hb
      obtain ⟨ia, _, ha⟩ := ha
      obtain ⟨ib, _, hb⟩ := hb
      rw [← ha, ← hb]
      exact ⟨rfl, rfl⟩
    · intro hle
      exact absurd hle (not_le.mpr h3)

/-- Witness for C2: conservation at the concrete $40,000 / $100,000 / 0.25
split, and the single-sub-trade conclusion at a trade under the threshold. -/
theorem C2_split_conservation_witness :
    ((splitTradeIntoSubTrades tradeC1 100000 (1 / 4)).map
        (fun s => s.differenceAmount)).sum = 16 ∧
    ((splitTradeIntoSubTrades tradeC1 100000 (1 / 4)).map
        (fun s => s.differenceValueUSD)).sum = 40000 ∧
    (splitTradeIntoSubTrades tradeC1 100000 2).length = 1 := by
  refine ⟨(C2_split_conservation tradeC1 100000 (1 / 4)).1,
    (C2_split_conservation tradeC1 100000 (1 / 4)).2.1,
    (C2_split_conservation tradeC1 100000 2).2.2.2 (by norm_num [tradeC1])⟩

/-- Symbol normalization from `analyze-allocation-step.ts` line 66: the Base
wrapped-stablecoin variant `USDbC` folds into `USDC`. -/
def normalizeSymbol (s : String) : String :=
  if s = "USDbC" then "USDC" else s

/-- One step of `symbolTotals[sym] = (symbolTotals[sym] || 0) + amount`:
add into the existing entry (keeping its position, as JS object keys keep
insertion order) or append a new entry. -/
def addAmount : List (String × ℚ) → String → ℚ → List (String × ℚ)
  | [], s, a => [(s, a)]
  | p :: rest, s, a =>
      if p.1 = s then (p.1, p.2 + a) :: rest else p :: addAmount rest s a

/-- The `symbolTotals` object of `analyze-allocation-step.ts` lines 63-70:
per-symbol amounts after normalization, in first-seen order. -/
def symbolTotals (balances : List Balance) : List (String × ℚ) :=
  balances.foldl (fun acc b => addAmount acc (normalizeSymbol b.symbol) b.amount) []

/-- `totalValueUSD` from `analyze-allocation-step.ts` lines 73-78: the
running `totalValueUSD += amount * price` over all held symbols. -/
def totalValueUSD (balances : List Balance) (prices : List (String × ℚ)) : ℚ :=
  (symbolTotals balances).foldl (fun acc p => acc + p.2 * priceOf prices p.1) 0

/-- `currentAllocationPercent[symbol]` from `analyze-allocation-step.ts`
lines 83-90: `valueUSD / totalValueUSD` guarded by `totalValueUSD > 0`. -/
def currentAllocationPercent (balances : List Balance)
    (prices : List (String × ℚ)) (total : ℚ) (s : String) : ℚ :=
  let amount := lookupD (symbolTotals balances) s 0
  let valueUSD := amount * priceOf prices s
  if total > 0 then valueUSD / total else 0

/-- `ConfigType` from `recall-portfolio-rebalancing/types.ts` (the
`targetAllocation` JS object is an association list with unique keys). -/
structure ConfigType where
  targetAllocation : List (String × ℚ)
  consolidateToChain : Option String
  rebalanceThreshold : ℚ
  minTradeValueUSD : ℚ
  maxSlippage : String
  forceRebalance : Bool
  skipConsolidation : Bool
deriving DecidableEq, Repr

/-- `allocationDrift[symbol]` from `analyze-allocation-step.ts` lines
93-103 (lookup form; target keys are unique, so this is the value stored
by the drift loop). -/
def allocationDriftOf (cfg : ConfigType) (balances : List Balance)
    (prices : List (String × ℚ)) (s : String) : ℚ :=
  |currentAllocationPercent balances prices (totalValueUSD balances prices) s -
    lookupD cfg.targetAllocation s 0|

/-- `maxDrift` from `analyze-allocation-step.ts` lines 94-103. -/
def maxDriftOf (cfg : ConfigType) (balances : List Balance)
    (prices : List (String × ℚ)) : ℚ :=
  cfg.targetAllocation.foldl
    (fun m p =>
      max m |currentAllocationPercent balances prices
        (totalValueUSD balances prices) p.1 - p.2|) 0

/-- `needsRebalancing = config.forceRebalance || maxDrift >
config.rebalanceThreshold` (lines 105-106). -/
def needsRebalancing (cfg : ConfigType) (balances : List Balance)
    (prices : List (String × ℚ)) : Bool :=
  cfg.forceRebalance ||
    decide (maxDriftOf cfg balances prices > cfg.rebalanceThreshold)

/-- `CHAIN_PREFERENCES` from `constants.ts`: preferred chains per supported
token (other symbols have no entry; the analyzer only indexes it with
target symbols, which the `TokenSchema` restricts to these four). -/
def CHAIN_PREFERENCES (s : String) : List String :=
  if s = "USDC" then ["eth", "arbitrum", "polygon", "base", "optimism", "svm"]
  else if s = "WETH" then ["eth", "arbitrum", "optimism", "polygon", "base"]
  else if s = "USDT" then ["eth", "arbitrum", "polygon", "optimism", "base", "svm"]
  else if s = "SOL" then ["svm"]
  else []

/-- `targetAmount = price > 0 ? targetValueUSD / price : 0`
(`analyze-allocation-step.ts` line 139): defined as 0 when the price is 0,
so an unpriced symbol never causes a division by zero. -/
def targetAmountOf (price targetValueUSD : ℚ) : ℚ :=
  if price > 0 then targetValueUSD / price else 0

/-- One pass of the target-symbol planning loop, `analyze-allocation-step.ts`
lines 133-161: `some entry` when `differenceValueUSD ≥ minTradeValueUSD`. -/
def planTargetEntry (cfg : ConfigType) (balances : List Balance)
    (prices : List (String × ℚ)) (p : String × ℚ) : Option TradeParams :=
  let symbol := p.1
  let targetPercent := p.2
  let currentAmount := lookupD (symbolTotals balances) symbol 0
  let price := priceOf prices symbol
  let targetValueUSD := totalValueUSD balances prices * targetPercent
  let targetAmount := targetAmountOf price targetValueUSD
  let differenceAmount := targetAmount - currentAmount
  let differenceValueUSD := |differenceAmount * price|
  if differenceValueUSD ≥ cfg.minTradeValueUSD then
    some
      { action := if differenceAmount > 0 then .buy else .sell
        symbol := symbol
        currentAmount := currentAmount
        targetAmount := targetAmount
        differenceAmount := |differenceAmount|
        differenceValueUSD := differenceValueUSD
        priority := allocationDriftOf cfg balances prices symbol * 100
        preferredChain :=
          cfg.consolidateToChain.getD ((CHAIN_PREFERENCES symbol).headD "") }
  else none

/-- The target-symbol portion of the rebalancing plan (lines 133-161). -/
def rebalancingPlanTargets (cfg : ConfigType) (balances : List Balance)
    (prices : List (String × ℚ)) : List TradeParams :=
  cfg.targetAllocation.filterMap (planTargetEntry cfg balances prices)

/-- One pass of the zero-target liquidation loop, lines 164-189: a forced
full sell at fixed priority 50 when the held value is significant. -/
def planZeroTargetEntry (cfg : ConfigType) (prices : List (String × ℚ))
    (p : String × ℚ) : Option TradeParams :=
  let symbol := p.1
  let amount := p.2
  let targetPercent := lookupD cfg.targetAllocation symbol 0
  let price := priceOf prices symbol
  let currentValueUSD := amount * price
  if targetPercent = 0 ∧ currentValueUSD ≥ cfg.minTradeValueUSD then
    some
      { action := .sell
        symbol := symbol
        currentAmount := amount
        targetAmount := 0
        differenceAmount := amount
        differenceValueUSD := currentValueUSD
        priority := 50
        preferredChain := cfg.consolidateToChain.getD "eth" }
  else none

/-- The zero-target portion of the rebalancing plan (lines 164-189). -/
def rebalancingPlanZeros (cfg : ConfigType) (balances : List Balance)
    (prices : List (String × ℚ)) : List TradeParams :=
  (symbolTotals balances).filterMap (planZeroTargetEntry cfg prices)

/-- `analysis.rebalancingPlan` from `analyze-allocation-step.ts` lines
126-204: both loops, then `sort((a, b) => b.priority - a.priority)`;
empty when `needsRebalancing` is false. -/
def rebalancingPlan (cfg : ConfigType) (balances : List Balance)
    (prices : List (String × ℚ)) : List TradeParams :=
  if needsRebalancing cfg balances prices then
    sortDescBy (fun e => e.priority)
      (rebalancingPlanTargets cfg balances prices ++
        rebalancingPlanZeros cfg balances prices)
  else []

theorem mem_rebalancingPlan_iff (cfg : ConfigType) (balances : List Balance)
    (prices : List (String × ℚ)) (e : TradeParams)
    (h : needsRebalancing cfg balances prices = true) :
    e ∈ rebalancingPlan cfg balances prices ↔
      e ∈ rebalancingPlanTargets cfg balances prices ++
        rebalancingPlanZeros cfg balances prices := by
  unfold rebalancingPlan
  rw [if_pos h]
  exact (sortDescBy_perm _ _).mem_iff

/-- C3: whenever the analyzer decides rebalancing is needed, every held
(normalized) symbol with zero target weight and value at least
`minTradeValueUSD` gets a full-amount sell entry at fixed priority 50;
every entry produced by the target-symbol loop carries priority
`drift[symbol] * 100`; and the final plan is sorted in descending order of
priority. -/
theorem C3_forced_liquidation_and_ordering (cfg : ConfigType)
    (balances : List Balance) (prices : List (String × ℚ))
    (h : needsRebalancing cfg balances prices = true) :
    (∀ p ∈ symbolTotals balances,
      lookupD cfg.targetAllocation p.1 0 = 0 →
      cfg.minTradeValueUSD ≤ p.2 * priceOf prices p.1 →
      ∃ e ∈ rebalancingPlan cfg balances prices,
        e.action = .sell ∧ e.symbol = p.1 ∧ e.currentAmount = p.2 ∧
        e.differenceAmount = p.2 ∧ e.priority = 50) ∧
    (∀ e ∈ rebalancingPlanTargets cfg balances prices,
      e.priority = allocationDriftOf cfg balances prices e.symbol * 100) ∧
    (rebalancingPlan cfg balances prices).Pairwise
      (fun a b => b.priority ≤ a.priority) := by
  refine ⟨?_, ?_, ?_⟩
  · intro p hp htarget hmin
    have hentry : planZeroTargetEntry cfg prices p =
        some
          { action := .sell
            symbol := p.1
            currentAmount := p.2
            targetAmount := 0
            differenceAmount := p.2
            differenceValueUSD := p.2 * priceOf prices p.1
            priority := 50
            preferredChain := cfg.consolidateToChain.getD "eth" } := by
      unfold planZeroTargetEntry
      rw [if_pos ⟨htarget, hmin⟩]
    refine ⟨{ action := .sell, symbol := p.1, currentAmount := p.2,
              targetAmount := 0, differenceAmount := p.2,
              differenceValueUSD := p.2 * priceOf prices p.1, priority := 50,
              preferredChain := cfg.consolidateToChain.getD "eth" }, ?_,
            rfl, rfl, rfl, rfl, rfl⟩
    rw [mem_rebalancingPlan_iff cfg balances prices _ h]
    exact List.mem_append_right _
      (List.mem_filterMap.mpr ⟨p, hp, hentry⟩)
  · intro e he
    obtain ⟨p, _, hp⟩ := List.mem_filterMap.mp he
    unfold planTargetEntry at hp
    by_cases hc : |(targetAmountOf (priceOf prices p.1)
        (totalValueUSD balances prices * p.2) -
          lookupD (symbolTotals balances) p.1 0) * priceOf prices p.1| ≥
        cfg.minTradeValueUSD
    · simp only [if_pos hc, Option.some.injEq] at hp
      rw [← hp]
    · simp only [if_neg hc] at hp
      exact absurd hp (by simp)
  · unfold rebalancingPlan
    rw [if_pos h]
    exact sortDescBy_pairwise _ _

/-- Configuration used by the concrete allocation-analyzer witnesses:
target 100% USDT, forced rebalance, default thresholds. -/
def cfgW3 : ConfigType :=
  { targetAllocation := [("USDT", 1)]
    consolidateToChain := none
    rebalanceThreshold := 1 / 1000
    minTradeValueUSD := 1 / 100
    maxSlippage := "2.0"
    forceRebalance := true
    skipConsolidation := false }

/-- Portfolio holding only a non-target token `FOO`. -/
def balW3 : List Balance :=
  [{ tokenAddress := "0xfoo", amount := 5, specificChain := "eth",
     symbol := "FOO", chain := "evm" }]

/-- Price snapshot for the allocation-analyzer witnesses. -/
def prW3 : List (String × ℚ) := [("USDT", 1), ("FOO", 1)]

/-- Witness for C3: with the concrete portfolio `balW3` the plan contains
the forced full-amount sell of `FOO` at priority 50. -/
theorem C3_forced_liquidation_and_ordering_witness :
    needsRebalancing cfgW3 balW3 prW3 = true ∧
    ((rebalancingPlan cfgW3 balW3 prW3).any fun e =>
      decide (e.action = .sell ∧ e.symbol = "FOO" ∧ e.currentAmount = 5 ∧
        e.differenceAmount = 5 ∧ e.priority = 50)) = true := by
  have hneeds : needsRebalancing cfgW3 balW3 prW3 = true := by
    simp [needsRebalancing, cfgW3]
  have hmem : (("FOO", (5 : ℚ))) ∈ symbolTotals balW3 := by
    simp [symbolTotals, balW3, addAmount, normalizeSymbol]
  have htarget : lookupD cfgW3.targetAllocation "FOO" 0 = 0 := by
    simp [cfgW3, lookupD, lookupQ, jsOrD]
  have hprice : priceOf prW3 "FOO" = 1 := rfl
  have hmin : cfgW3.minTradeValueUSD ≤ (5 : ℚ) * priceOf prW3 "FOO" := by
    rw [hprice]; norm_num [cfgW3]
  obtain ⟨e, he, h1, h2, h3, h4, h5⟩ :=
    (C3_forced_liquidation_and_ordering cfgW3 balW3 prW3 hneeds).1
      ("FOO", 5) hmem htarget hmin
  refine ⟨hneeds, List.any_eq_true.mpr ⟨e, he, ?_⟩⟩
  simp [h1, h2, h3, h4, h5]

theorem foldl_add_eq_sum {α : Type} (f : α → ℚ) (l : List α) :
    l.foldl (fun acc p => acc + f p) 0 = (l.map f).sum := by
  suffices h : ∀ init : ℚ, l.foldl (fun acc p => acc + f p) init =
      init + (l.map f).sum by
    simpa using h 0
  induction l with
  | nil => intro init; simp
  | cons x xs ih =>
    intro init
    simp only [List.foldl_cons, List.map_cons, List.sum_cons]
    rw [ih]
    ring

theorem priceOf_eq_zero_of_none (prices : List (String × ℚ)) (s : String)
    (hs : lookupQ prices s = none) : priceOf prices s = 0 := by
  simp [priceOf, lookupD, hs, jsOrD]

/-- C5: `totalValueUSD` sums `amount * price` over all held (normalized)
symbols with missing prices counting as 0; a held symbol with no price
entry contributes 0, never appears in the rebalancing plan (its
`differenceValueUSD` is 0, below any positive `minTradeValueUSD`),
allocation fractions are 0 when `totalValueUSD` is 0, and target amounts
are 0 when the price is 0, so no division by zero occurs. -/
theorem C5_totalValue_and_unpriced_symbols (cfg : ConfigType)
    (balances : List Balance) (prices : List (String × ℚ)) (s : String)
    (hs : lookupQ prices s = none) :
    totalValueUSD balances prices =
      ((symbolTotals balances).map (fun p => p.2 * priceOf prices p.1)).sum ∧
    (∀ p ∈ symbolTotals balances, p.1 = s → p.2 * priceOf prices p.1 = 0) ∧
    (0 < cfg.minTradeValueUSD →
      ∀ e ∈ rebalancingPlan cfg balances prices, e.symbol ≠ s) ∧
    (∀ t : String, currentAllocationPercent balances prices 0 t = 0) ∧
    (∀ v : ℚ, targetAmountOf (priceOf prices s) v = 0) := by
  have hprice0 : priceOf prices s = 0 := priceOf_eq_zero_of_none prices s hs
  refine ⟨foldl_add_eq_sum _ _, ?_, ?_, ?_, ?_⟩
  · intro p _ hp
    rw [hp, hprice0, mul_zero]
  · intro hmin e he heq
    by_cases hneeds : needsRebalancing cfg balances prices = true
    · rw [mem_rebalancingPlan_iff cfg balances prices e hneeds,
        List.mem_append] at he
      rcases he with he | he
      · obtain ⟨p, _, hp⟩ := List.mem_filterMap.mp he
        unfold planTargetEntry at hp
        by_cases hc : |(targetAmountOf (priceOf prices p.1)
            (totalValueUSD balances prices * p.2) -
              lookupD (symbolTotals balances) p.1 0) * priceOf prices p.1| ≥
            cfg.minTradeValueUSD
        · simp only [if_pos hc, Option.some.injEq] at hp
          have hsym : p.1 = s := by rw [← hp] at heq; exact heq
          rw [hsym, hprice0, mul_zero, abs_zero] at hc
          exact absurd hc (not_le.mpr hmin)
        · simp only [if_neg hc] at hp
          exact absurd hp (by simp)
      · obtain ⟨p, _, hp⟩ := List.mem_filterMap.mp he
        unfold planZeroTargetEntry at hp
        by_cases hc : lookupD cfg.targetAllocation p.1 0 = 0 ∧
            p.2 * priceOf prices p.1 ≥ cfg.minTradeValueUSD
        · simp only [if_pos hc, Option.some.injEq] at hp
          have hsym : p.1 = s := by rw [← hp] at heq; exact heq
          rw [hsym, hprice0, mul_zero] at hc
          exact absurd hc.2 (not_le.mpr hmin)
        · simp only [if_neg hc] at hp
          exact absurd hp (by simp)
    · unfold rebalancingPlan at he
      rw [if_neg hneeds] at he
      exact absurd he (List.not_mem_nil e)
  · intro t
    simp [currentAllocationPercent]
  · intro v
    rw [hprice0]
    simp [targetAmountOf]

/-- Portfolio for the unpriced-symbol witness: USDT plus a symbol `BAR`
that has no price entry. -/
def balW5 : List Balance :=
  [{ tokenAddress := "0xusdt", amount := 7, specificChain := "eth",
     symbol := "USDT", chain := "evm" },
   { tokenAddress := "0xbar", amount := 3, specificChain := "eth",
     symbol := "BAR", chain := "evm" }]

/-- Price snapshot with no entry for `BAR`. -/
def prW5 : List (String × ℚ) := [("USDT", 1)]

/-- Witness for C5: with `BAR` unpriced, the total is the $7 of USDT alone,
no plan entry mentions `BAR`, and the guarded fraction and target amount
are 0. -/
theorem C5_totalValue_and_unpriced_symbols_witness :
    totalValueUSD balW5 prW5 = 7 ∧
    ((rebalancingPlan cfgW3 balW5 prW5).all fun e =>
      !(e.symbol == "BAR")) = true ∧
    currentAllocationPercent balW5 prW5 0 "BAR" = 0 ∧
    targetAmountOf (priceOf prW5 "BAR") 42 = 0 := by
  have hs : lookupQ prW5 "BAR" = none := rfl
  obtain ⟨h1, _, h3, h4, h5⟩ :=
    C5_totalValue_and_unpriced_symbols cfgW3 balW5 prW5 "BAR" hs
  have hpu : priceOf prW5 "USDT" = 1 := rfl
  have hpb : priceOf prW5 "BAR" = 0 := rfl
  refine ⟨?_, ?_, h4 "BAR", h5 42⟩
  · rw [h1]
    have htot : symbolTotals balW5 = [("USDT", 7), ("BAR", 3)] := by
      simp [symbolTotals, balW5, addAmount, normalizeSymbol]
    rw [htot]
    simp [hpu, hpb]
  · refine List.all_eq_true.mpr ?_
    intro e he
    have := h3 (by norm_num [cfgW3]) e he
    simpa using this

/-- C10 (implicit): a symbol that appears in the target allocation with
weight exactly 0 while held with positive price and value at least
`minTradeValueUSD` is planned for sale twice whenever rebalancing is
needed — once by the target-symbol loop at priority `drift * 100` and once
by the zero-weight liquidation loop at priority 50, both for the full held
amount. -/
theorem C10_zero_weight_target_double_sell (cfg : ConfigType)
    (balances : List Balance) (prices : List (String × ℚ)) (s : String)
    (amt : ℚ)
    (hneeds : needsRebalancing cfg balances prices = true)
    (hmemT : (s, (0 : ℚ)) ∈ cfg.targetAllocation)
    (hlookT : lookupD cfg.targetAllocation s 0 = 0)
    (hmemS : (s, amt) ∈ symbolTotals balances)
    (hlookS : lookupD (symbolTotals balances) s 0 = amt)
    (hamt : 0 ≤ amt)
    (hprice : 0 < priceOf prices s)
    (hmin : cfg.minTradeValueUSD ≤ amt * priceOf prices s) :
    2 ≤ (rebalancingPlan cfg balances prices).countP
      (fun e => decide (e.action = .sell ∧ e.symbol = s ∧
        e.differenceAmount = amt)) ∧
    (∃ e ∈ rebalancingPlanTargets cfg balances prices,
      e.action = .sell ∧ e.symbol = s ∧ e.differenceAmount = amt ∧
      e.priority = allocationDriftOf cfg balances prices s * 100) ∧
    (∃ e ∈ rebalancingPlanZeros cfg balances prices,
      e.action = .sell ∧ e.symbol = s ∧ e.differenceAmount = amt ∧
      e.priority = 50) := by
  have hvalabs : |(targetAmountOf (priceOf prices s)
      (totalValueUSD balances prices * 0) - lookupD (symbolTotals balances) s 0) *
        priceOf prices s| = amt * priceOf prices s := by
    rw [hlookS, mul_zero]
    have h0 : targetAmountOf (priceOf prices s) 0 = 0 := by
      unfold targetAmountOf
      split <;> simp
    rw [h0, zero_sub, neg_mul, abs_neg, abs_mul, abs_of_nonneg hamt,
      abs_of_nonneg (le_of_lt hprice)]
  have hsell : ¬(targetAmountOf (priceOf prices s)
      (totalValueUSD balances prices * 0) - lookupD (symbolTotals balances) s 0 > 0) := by
    rw [hlookS, mul_zero]
    have h0 : targetAmountOf (priceOf prices s) 0 = 0 := by
      unfold targetAmountOf
      split <;> simp
    rw [h0, zero_sub]
    simpa using hamt
  have habs : |targetAmountOf (priceOf prices s)
      (totalValueUSD balances prices * 0) - lookupD (symbolTotals balances) s 0| = amt := by
    rw [hlookS, mul_zero]
    have h0 : targetAmountOf (priceOf prices s) 0 = 0 := by
      unfold targetAmountOf
      split <;> simp
    rw [h0, zero_sub, abs_neg, abs_of_nonneg hamt]
  have hT : planTargetEntry cfg balances prices (s, 0) =
      some
        { action := .sell
          symbol := s
          currentAmount := lookupD (symbolTotals balances) s 0
          targetAmount := targetAmountOf (priceOf prices s)
            (totalValueUSD balances prices * 0)
          differenceAmount := |targetAmountOf (priceOf prices s)
            (totalValueUSD balances prices * 0) -
              lookupD (symbolTotals balances) s 0|
          differenceValueUSD := |(targetAmountOf (priceOf prices s)
            (totalValueUSD balances prices * 0) -
              lookupD (symbolTotals balances) s 0) * priceOf prices s|
          priority := allocationDriftOf cfg balances prices s * 100
          preferredChain :=
            cfg.consolidateToChain.getD ((CHAIN_PREFERENCES s).headD "") } := by
    unfold planTargetEntry
    rw [if_pos (by rw [hvalabs]; exact hmin)]
    simp only [Option.some.injEq]
    rw [if_neg hsell]
  have hZ : planZeroTargetEntry cfg prices (s, amt) =
      some
        { action := .sell
          symbol := s
          currentAmount := amt
          targetAmount := 0
          differenceAmount := amt
          differenceValueUSD := amt * priceOf prices s
          priority := 50
          preferredChain := cfg.consolidateToChain.getD "eth" } := by
    unfold planZeroTargetEntry
    rw [if_pos ⟨hlookT, hmin⟩]
  have hTmem : _ ∈ rebalancingPlanTargets cfg balances prices :=
    List.mem_filterMap.mpr ⟨(s, 0), hmemT, hT⟩
  have hZmem : _ ∈ rebalancingPlanZeros cfg balances prices :=
    List.mem_filterMap.mpr ⟨(s, amt), hmemS, hZ⟩
  refine ⟨?_, ⟨_, hTmem, rfl, rfl, habs, rfl⟩, ⟨_, hZmem, rfl, rfl, rfl, rfl⟩⟩
  unfold rebalancingPlan
  rw [if_pos hneeds]
  rw [List.Perm.countP_eq _ (sortDescBy_perm _ _), List.countP_append]
  have hcT : 0 < (rebalancingPlanTargets cfg balances prices).countP
      (fun e => decide (e.action = .sell ∧ e.symbol = s ∧
        e.differenceAmount = amt)) := by
    rw [List.countP_pos_iff]
    refine ⟨_, hTmem, ?_⟩
    simp only [decide_eq_true_eq]
    exact ⟨trivial, trivial, habs⟩
  have hcZ : 0 < (rebalancingPlanZeros cfg balances prices).countP
      (fun e => decide (e.action = .sell ∧ e.symbol = s ∧
        e.differenceAmount = amt)) := by
    rw [List.countP_pos_iff]
    exact ⟨_, hZmem, by simp⟩
  omega

/-- Configuration in which `FOO` appears as a target symbol with weight
exactly 0. -/
def cfgW10 : ConfigType :=
  { cfgW3 with targetAllocation := [("USDT", 1), ("FOO", 0)] }

/-- Witness for C10: with `FOO` held ($5 at price 1) and configured at
weight 0, the plan sells it twice. -/
theorem C10_zero_weight_target_double_sell_witness :
    2 ≤ (rebalancingPlan cfgW10 balW3 prW3).countP
      (fun e => decide (e.action = .sell ∧ e.symbol = "FOO" ∧
        e.differenceAmount = 5)) := by
  have hp : priceOf prW3 "FOO" = 1 := rfl
  have h := C10_zero_weight_target_double_sell cfgW10 balW3 prW3 "FOO" 5
    (by simp [needsRebalancing, cfgW10, cfgW3])
    (by simp [cfgW10, cfgW3])
    (by rfl)
    (by simp [symbolTotals, balW3, addAmount, normalizeSymbol])
    (by rfl)
    (by norm_num)
    (by rw [hp]; norm_num)
    (by rw [hp]; norm_num [cfgW10, cfgW3])
  exact h.1

/-- Outcome of the sell branch of `executeSingleTrade`
(`recall-portfolio-rebalancing/utils.ts` lines 127-206): either no matching
balance (`result: null`), the explicit `USDC→USDC` skip (`result: null`),
or an `executeTrade` call with the shown arguments. -/
inductive SellDecision
  | noBalance
  | skipInvalid
  | doTrade (fromSymbol toSymbol : String) (amount : ℚ)
      (fromSpecificChain toSpecificChain : String)
deriving DecidableEq, Repr

/-- `tokenBalances` from `utils.ts` lines 133-137: balances matching the
sold symbol, with `USDbC` accepted for a `USDC` sale. -/
def sellTokenBalances (trade : SubTradeParams) (portfolio : List Balance) :
    List Balance :=
  portfolio.filter fun b =>
    b.symbol == trade.symbol || (b.symbol == "USDbC" && trade.symbol == "USDC")

/-- JS `tokenBalances.reduce((max, current) => current.amount > max.amount ?
current : max)`: the first balance of maximal amount. -/
def bestOf (b0 : Balance) (rest : List Balance) : Balance :=
  rest.foldl (fun max current => if current.amount > max.amount then current else max) b0

/-- `bestBalance` selection from `utils.ts` lines 144-158: prefer the
consolidation chain when configured, else the largest balance; `none` only
when no balance matched. -/
def bestBalanceOf (cfg : ConfigType) : List Balance → Option Balance
  | [] => none
  | b0 :: rest =>
      some <|
        match cfg.consolidateToChain with
        | some c =>
            match (b0 :: rest).find? (fun b => b.specificChain == c) with
            | some b => b
            | none => bestOf b0 rest
        | none => bestOf b0 rest

/-- `primaryTargetToken` from `utils.ts` lines 167-171: entries with
positive weight, sorted descending by weight (stable), first one. -/
def primaryTargetToken (target : List (String × ℚ)) : Option (String × ℚ) :=
  (sortDescBy (fun p => p.2) (target.filter fun p => decide (p.2 > 0))).head?

/-- The sell branch of `executeSingleTrade` (`utils.ts` lines 127-206) up
to the `executeTrade` call.  `config.targetAllocation || analysis.target‑
Allocation` always takes the config object (a JS object is truthy). -/
def sellDecision (trade : SubTradeParams) (portfolio : List Balance)
    (cfg : ConfigType) : SellDecision :=
  match bestBalanceOf cfg (sellTokenBalances trade portfolio) with
  | none => .noBalance
  | some bestBalance =>
      let tradeAmount := min trade.differenceAmount bestBalance.amount
      match primaryTargetToken cfg.targetAllocation with
      | some t =>
          if trade.symbol = "USDC" then
            .doTrade "USDC" t.1 tradeAmount bestBalance.specificChain
              trade.preferredChain
          else
            .doTrade trade.symbol "USDC" tradeAmount bestBalance.specificChain
              trade.preferredChain
      | none =>
          if trade.symbol ≠ "USDC" then
            .doTrade trade.symbol "USDC" tradeAmount bestBalance.specificChain
              trade.preferredChain
          else
            .skipInvalid

/-- Sub-trade used by the C4 routing counterexample: selling `WETH`, which
has target weight 0 under `cfgC4a`. -/
def subTradeC4a : SubTradeParams :=
  { action := .sell, symbol := "WETH", currentAmount := 2, targetAmount := 0,
    differenceAmount := 1, differenceValueUSD := 3000, priority := 50,
    preferredChain := "eth", subTradeIndex := 1, totalSubTrades := 1 }

/-- Portfolio holding the `WETH` being sold. -/
def portC4a : List Balance :=
  [{ tokenAddress := "0xweth", amount := 2, specificChain := "eth",
     symbol := "WETH", chain := "evm" }]

/-- Configuration whose single positively weighted target is `SOL`. -/
def cfgC4a : ConfigType :=
  { cfgW3 with targetAllocation := [("SOL", 1)] }

/-- Sub-trade selling the bridge asset `USDC` itself. -/
def subTradeC4b : SubTradeParams :=
  { action := .sell, symbol := "USDC", currentAmount := 2, targetAmount := 0,
    differenceAmount := 1, differenceValueUSD := 1, priority := 50,
    preferredChain := "eth", subTradeIndex := 1, totalSubTrades := 1 }

/-- Portfolio holding the `USDC` being sold. -/
def portC4b : List Balance :=
  [{ tokenAddress := "0xusdc", amount := 2, specificChain := "eth",
     symbol := "USDC", chain := "evm" }]

/-- Configuration whose single positively weighted target is `USDC`. -/
def cfgC4b : ConfigType :=
  { cfgW3 with targetAllocation := [("USDC", 1)] }

/-- Counterexample to C4 as stated.  Selling `WETH` — a symbol whose own
target weight is 0 while the highest-weighted target is `SOL` — routes the
proceeds to the bridge asset `USDC`, not to `SOL`: the direct-routing rule
is keyed on the sold symbol being literally `"USDC"`, not on its target
weight.  And selling `USDC` while `USDC` is itself the highest-weighted
target issues a `USDC→USDC` trade call instead of skipping it. -/
theorem C4_sell_routing_counterexample :
    sellDecision subTradeC4a portC4a cfgC4a =
      .doTrade "WETH" "USDC" 1 "eth" "eth" ∧
    lookupD cfgC4a.targetAllocation "WETH" 0 = 0 ∧
    primaryTargetToken cfgC4a.targetAllocation = some ("SOL", 1) ∧
    ("USDC" : String) ≠ "SOL" ∧
    sellDecision subTradeC4b portC4b cfgC4b =
      .doTrade "USDC" "USDC" 1 "eth" "eth" := by
  refine ⟨rfl, rfl, rfl, by decide, rfl⟩

/-- C4 (amended): in sell execution, when some balance matches the sold
symbol, a sale of the bridge asset `USDC` routes to the single
highest-weighted target symbol whenever one has positive weight (even if
that is `USDC` itself), a sale of any other symbol routes to the bridge
asset `USDC` regardless of that symbol's target weight, and a `USDC` sale
with no positively weighted target symbol is skipped with no trade call. -/
theorem C4_sell_routing_amended (trade : SubTradeParams)
    (portfolio : List Balance) (cfg : ConfigType) (best : Balance)
    (hbest : bestBalanceOf cfg (sellTokenBalances trade portfolio) = some best) :
    (trade.symbol = "USDC" →
      (∀ t : String × ℚ, primaryTargetToken cfg.targetAllocation = some t →
        sellDecision trade portfolio cfg =
          .doTrade "USDC" t.1 (min trade.differenceAmount best.amount)
            best.specificChain trade.preferredChain) ∧
      (primaryTargetToken cfg.targetAllocation = none →
        sellDecision trade portfolio cfg = .skipInvalid)) ∧
    (trade.symbol ≠ "USDC" →
      sellDecision trade portfolio cfg =
        .doTrade trade.symbol "USDC" (min trade.differenceAmount best.amount)
          best.specificChain trade.preferredChain) := by
  refine ⟨fun hsym => ⟨fun t ht => ?_, fun hnone => ?_⟩, fun hsym => ?_⟩
  · unfold sellDecision
    rw [hbest, ht]
    simp only [if_pos hsym]
  · unfold sellDecision
    rw [hbest, hnone]
    simp only [ne_eq, hsym, not_true_eq_false, if_false]
  · unfold sellDecision
    rw [hbest]
    cases hpt : primaryTargetToken cfg.targetAllocation with
    | some t => simp only [if_neg hsym]
    | none => simp only [ne_eq, hsym, not_false_eq_true, if_true]

/-- Witness for the amended C4: a `USDC` sale routes to the top target
`SOL`, and a `WETH` sale routes to `USDC`. -/
theorem C4_sell_routing_amended_witness :
    sellDecision subTradeC4b portC4b cfgC4a =
      .doTrade "USDC" "SOL" 1 "eth" "eth" ∧
    sellDecision subTradeC4a portC4a cfgC4a =
      .doTrade "WETH" "USDC" 1 "eth" "eth" := by
  constructor
  · have h := ((C4_sell_routing_amended subTradeC4b portC4b cfgC4a
      { tokenAddress := "0xusdc", amount := 2, specificChain := "eth",
        symbol := "USDC", chain := "evm" } rfl).1 rfl).1 ("SOL", 1) rfl
    simpa using h
  · have h := (C4_sell_routing_amended subTradeC4a portC4a cfgC4a
      { tokenAddress := "0xweth", amount := 2, specificChain := "eth",
        symbol := "WETH", chain := "evm" } rfl).2 (by decide)
    simpa using h

/-- `SUPPORTED_TOKENS` from `recall-trading/types.ts`: the zod enum domain
of `executeTrade`'s `fromSymbol` / `toSymbol`. -/
inductive SupportedToken
  | USDC
  | WETH
  | USDT
  | SOL
deriving DecidableEq, Repr, Fintype

/-- The symbol string of a supported token. -/
def SupportedToken.str : SupportedToken → String
  | .USDC => "USDC"
  | .WETH => "WETH"
  | .USDT => "USDT"
  | .SOL => "SOL"

/-- `SUPPORTED_CHAINS` from `recall-trading/types.ts`: the zod enum domain
of the specific-chain arguments. -/
inductive SupportedChain
  | eth
  | polygon
  | base
  | arbitrum
  | optimism
  | svm
deriving DecidableEq, Repr, Fintype

/-- The chain name string of a supported chain. -/
def SupportedChain.str : SupportedChain → String
  | .eth => "eth"
  | .polygon => "polygon"
  | .base => "base"
  | .arbitrum => "arbitrum"
  | .optimism => "optimism"
  | .svm => "svm"

/-- `SPESIFIC_CHAIN_TOKENS` from `constants.ts`: per-chain contract
addresses keyed by the lower-case token key. -/
def SPESIFIC_CHAIN_TOKENS (chain : SupportedChain) (tokenKey : String) :
    Option String :=
  match chain with
  | .eth =>
      if tokenKey = "eth" then some "0xC02aaA39b223FE8D0A0e5C4F27eAD9083C756Cc2"
      else if tokenKey = "usdc" then some "0xA0b86991c6218b36c1d19D4a2e9Eb0cE3606eB48"
      else if tokenKey = "usdt" then some "0xdAC17F958D2ee523a2206206994597C13D831ec7"
      else none
  | .polygon =>
      if tokenKey = "eth" then some "0x7ceB23fD6bC0adD59E62ac25578270cFf1b9f619"
      else if tokenKey = "usdc" then some "0x2791Bca1f2de4661ED88A30C99A7a9449Aa84174"
      else if tokenKey = "usdt" then some "0xc2132D05D31c914a87C6611C10748AEb04B58e8F"
      else none
  | .base =>
      if tokenKey = "eth" then some "0x4200000000000000000000000000000000000006"
      else if tokenKey = "usdc" then some "0xd9aAEc86B65D86f6A7B5B1b0c42FFA531710b6CA"
      else if tokenKey = "usdt" then some "0x50c5725949A6F0c72E6C4a641F24049A917DB0Cb"
      else none
  | .svm =>
      if tokenKey = "sol" then some "So11111111111111111111111111111111111111112"
      else if tokenKey = "usdc" then some "EPjFWdd5AufqSSqeM2qN1xzybapC8G4wEGGkZwyTDt1v"
      else if tokenKey = "usdt" then some "Es9vMFrzaCERmJfrF4H2FYD4KCoNkY11McCe8BenwNYB"
      else none
  | .arbitrum =>
      if tokenKey = "eth" then some "0x82af49447d8a07e3bd95bd0d56f35241523fbab1"
      else if tokenKey = "usdc" then some "0xaf88d065e77c8cc2239327c5edb3a432268e5831"
      else if tokenKey = "usdt" then some "0xfd086bc7cd5c481dcc9c85ebe478a1c0b69fcbb9"
      else none
  | .optimism =>
      if tokenKey = "eth" then some "0x4200000000000000000000000000000000000006"
      else if tokenKey = "usdc" then some "0x7f5c764cbc14f9669b88837ca1490cca17c31607"
      else if tokenKey = "usdt" then some "0x94b008aa00579c1307b0ef2c499ad98a8ce58e58"
      else none

/-- `CHAIN_TYPE_MAP` from `constants.ts`. -/
def CHAIN_TYPE_MAP (c : SupportedChain) : String :=
  match c with
  | .svm => "svm"
  | _ => "evm"

/-- `DEFAULT_CHAIN_FOR_SYMBOL` from `constants.ts`. -/
def DEFAULT_CHAIN_FOR_SYMBOL (s : SupportedToken) : Option SupportedChain :=
  match s with
  | .WETH => some .eth
  | .USDC => some .eth
  | .USDT => some .eth
  | .SOL => some .svm

/-- `SYMBOL_VARIANTS` from `recall-trading/types.ts`. -/
def SYMBOL_VARIANTS (s : String) : Option String :=
  if s = "USDC" then some "USDC"
  else if s = "USDbC" then some "USDC"
  else if s = "WETH" then some "WETH"
  else if s = "ETH" then some "WETH"
  else if s = "USDT" then some "USDT"
  else if s = "SOL" then some "SOL"
  else none

/-- `TokenInfo` from `recall-trading/types.ts` (the resolved specific chain
kept in its enum form). -/
structure TokenInfo where
  address : String
  chain : String
  specificChain : SupportedChain
  symbol : String
deriving DecidableEq, Repr

/-- JS `toLowerCase()` on the ASCII strings used here (addresses and
symbols), as a kernel-computable character map. -/
def strToLower (s : String) : String :=
  String.mk (s.data.map Char.toLower)

/-- `symbol.toLowerCase().replace("w", "")` (`recall-trading/utils.ts` line
41), evaluated on the four-token enum domain: `USDC ↦ usdc`,
`WETH ↦ eth` (`weth` minus its one `w`), `USDT ↦ usdt`, `SOL ↦ sol`. -/
def tokenKeyOf : SupportedToken → String
  | .USDC => "usdc"
  | .WETH => "eth"
  | .USDT => "usdt"
  | .SOL => "sol"

/-- `getTokenInfo` from `recall-trading/utils.ts` lines 21-80.  A `throw`
(unsupported token/chain combination or missing address) is `none`. -/
def getTokenInfo (symbol : SupportedToken)
    (specificChain : Option SupportedChain) : Option TokenInfo :=
  if symbol = .SOL then
    some
      { address := "So11111111111111111111111111111111111111112"
        chain := "svm"
        specificChain := specificChain.getD .svm
        symbol := "SOL" }
  else
    let defaultChain := (DEFAULT_CHAIN_FOR_SYMBOL symbol).getD .eth
    let targetChain := specificChain.getD defaultChain
    let tokenKey := tokenKeyOf symbol
    if targetChain = .svm then
      if tokenKey = "usdc" ∨ tokenKey = "usdt" then
        (SPESIFIC_CHAIN_TOKENS targetChain tokenKey).map fun address =>
          { address := address, chain := CHAIN_TYPE_MAP targetChain,
            specificChain := targetChain, symbol := symbol.str }
      else none
    else
      if tokenKey = "eth" ∨ tokenKey = "usdc" ∨ tokenKey = "usdt" then
        (SPESIFIC_CHAIN_TOKENS targetChain tokenKey).map fun address =>
          { address := address, chain := CHAIN_TYPE_MAP targetChain,
            specificChain := targetChain, symbol := symbol.str }
      else none

/-- `findBalanceForToken` from `recall-trading/utils.ts` lines 85-108:
exact address-and-chain match first, then the symbol-variant fallback. -/
def findBalanceForToken (balances : List Balance) (tokenInfo : TokenInfo) :
    Option Balance :=
  match balances.find? (fun b =>
      strToLower b.tokenAddress == strToLower tokenInfo.address &&
      b.specificChain == tokenInfo.specificChain.str) with
  | some b => some b
  | none =>
      balances.find? fun b =>
        (SYMBOL_VARIANTS b.symbol).getD b.symbol == tokenInfo.symbol &&
        b.specificChain == tokenInfo.specificChain.str

/-- The JSON body posted to `/api/trade/execute` (string-valued chains, as
on the wire). -/
structure TradePayload where
  fromToken : String
  toToken : String
  amount : ℚ
  fromChain : String
  fromSpecificChain : String
  toChain : String
  toSpecificChain : String
deriving DecidableEq, Repr

/-- Result of `executeTrade` / `executeTradeByAddress` up to the exchange
API: `invalidTrade` and `insufficientBalance` and `resolutionError` return
before any `/api/trade/execute` call; `executed p` posts exactly `p`. -/
inductive TradeResponse
  | invalidTrade
  | resolutionError
  | insufficientBalance
  | executed (payload : TradePayload)
deriving DecidableEq, Repr

/-- `executeTrade` from `recall-trading/trading-tools.ts` lines 176-334,
up to the exchange call: the same-token-same-chain guard (line 205, where
two absent chains also compare equal), token resolution, the balance
check, and the posted payload. -/
def executeTrade (fromSymbol toSymbol : SupportedToken) (amount : ℚ)
    (fromSpecificChain toSpecificChain : Option SupportedChain)
    (balances : List Balance) : TradeResponse :=
  if fromSymbol = toSymbol ∧ fromSpecificChain = toSpecificChain then
    .invalidTrade
  else
    match getTokenInfo fromSymbol fromSpecificChain,
        getTokenInfo toSymbol toSpecificChain with
    | some fromInfo, some toInfo =>
        let availableBalance :=
          ((findBalanceForToken balances fromInfo).map (·.amount)).getD 0
        if availableBalance ≥ amount then
          .executed
            { fromToken := fromInfo.address
              toToken := toInfo.address
              amount := amount
              fromChain := fromInfo.chain
              fromSpecificChain := fromInfo.specificChain.str
              toChain := toInfo.chain
              toSpecificChain := toInfo.specificChain.str }
        else .insufficientBalance
    | _, _ => .resolutionError

/-- `executeTradeByAddress` from `recall-trading/trading-tools.ts` lines
19-171, up to the exchange call (its guard at line 49 compares lower-cased
addresses and the specific chains). -/
def executeTradeByAddress (fromTokenAddress toTokenAddress : String)
    (amount : ℚ) (fromChain : String) (fromSpecificChain : SupportedChain)
    (toChain : String) (toSpecificChain : SupportedChain)
    (balances : List Balance) : TradeResponse :=
  if strToLower fromTokenAddress = strToLower toTokenAddress ∧
      fromSpecificChain = toSpecificChain then
    .invalidTrade
  else
    let selectedBalance := balances.find? fun b =>
      strToLower b.tokenAddress == strToLower fromTokenAddress &&
      b.specificChain == fromSpecificChain.str
    let availableBalance := (selectedBalance.map (·.amount)).getD 0
    if availableBalance ≥ amount then
      .executed
        { fromToken := fromTokenAddress
          toToken := toTokenAddress
          amount := amount
          fromChain := fromChain
          fromSpecificChain := fromSpecificChain.str
          toChain := toChain
          toSpecificChain := toSpecificChain.str }
    else .insufficientBalance

theorem SupportedChain.str_inj :
    ∀ c1 c2 : SupportedChain, c1.str = c2.str → c1 = c2 := by decide

/-- Whether the resolved sides of a symbol trade with explicit chains
differ in address or chain. -/
def resolvedPairOk (f t : SupportedToken) (fc tc : SupportedChain) : Bool :=
  match getTokenInfo f (some fc), getTokenInfo t (some tc) with
  | some fi, some ti =>
      !(decide (fi.address = ti.address) &&
        decide (fi.specificChain = ti.specificChain))
  | _, _ => true

theorem resolvedPairOk_of_ne :
    ∀ (f t : SupportedToken) (fc tc : SupportedChain),
      (f ≠ t ∨ fc ≠ tc) → resolvedPairOk f t fc tc = true := by decide

/-- Portfolio holding $10 of USDC on Ethereum (its mainnet contract). -/
def balC8 : List Balance :=
  [{ tokenAddress := "0xA0b86991c6218b36c1d19D4a2e9Eb0cE3606eB48",
     amount := 10, specificChain := "eth", symbol := "USDC", chain := "evm" }]

/-- Counterexample to C8 as stated: a `USDC → USDC` request with the
from-chain left unspecified and the to-chain `eth` passes the guard
(`undefined === "eth"` is false), both sides resolve to USDC's default
chain `eth`, and the exchange call is issued with the identical resolved
token and chain on both sides. -/
theorem C8_self_trade_counterexample :
    executeTrade .USDC .USDC 5 none (some .eth) balC8 =
      .executed
        { fromToken := "0xA0b86991c6218b36c1d19D4a2e9Eb0cE3606eB48"
          toToken := "0xA0b86991c6218b36c1d19D4a2e9Eb0cE3606eB48"
          amount := 5
          fromChain := "evm"
          fromSpecificChain := "eth"
          toChain := "evm"
          toSpecificChain := "eth" } := by
  rfl

/-- C8 (amended): `executeTrade` rejects a same-symbol request whose two
specific-chain arguments are equal (including both absent) before any
exchange call; `executeTradeByAddress` likewise rejects equal (lower-cased)
addresses on the same chain; `executeSingleTrade` never issues a sell call
for `USDC` when no positively weighted target symbol exists; and whenever
both specific chains are given explicitly, no executed call carries the
identical resolved token and chain on both sides.  (With a chain argument
omitted, the resolved sides can coincide — see the counterexample.) -/
theorem C8_no_self_trade_amended :
    (∀ (f t : SupportedToken) (a : ℚ) (c : Option SupportedChain)
        (bal : List Balance),
      f = t → executeTrade f t a c c bal = .invalidTrade) ∧
    (∀ (fa ta : String) (a : ℚ) (fc : String) (c : SupportedChain)
        (tc : String) (bal : List Balance),
      strToLower fa = strToLower ta →
      executeTradeByAddress fa ta a fc c tc c bal = .invalidTrade) ∧
    (∀ (trade : SubTradeParams) (portfolio : List Balance) (cfg : ConfigType),
      trade.symbol = "USDC" →
      primaryTargetToken cfg.targetAllocation = none →
      ∀ (f t : String) (a : ℚ) (c1 c2 : String),
        sellDecision trade portfolio cfg ≠ .doTrade f t a c1 c2) ∧
    (∀ (f t : SupportedToken) (fc tc : SupportedChain) (a : ℚ)
        (bal : List Balance) (p : TradePayload),
      executeTrade f t a (some fc) (some tc) bal = .executed p →
      ¬(p.fromToken = p.toToken ∧ p.fromSpecificChain = p.toSpecificChain)) ∧
    (∀ (fa ta : String) (a : ℚ) (fc : String) (c1 : SupportedChain)
        (tc : String) (c2 : SupportedChain) (bal : List Balance)
        (p : TradePayload),
      executeTradeByAddress fa ta a fc c1 tc c2 bal = .executed p →
      ¬(strToLower p.fromToken = strToLower p.toToken ∧
        p.fromSpecificChain = p.toSpecificChain)) := by
  refine ⟨?_, ?_, ?_, ?_, ?_⟩
  · intro f t a c bal h
    unfold executeTrade
    rw [if_pos ⟨h, rfl⟩]
  · intro fa ta a fc c tc bal h
    unfold executeTradeByAddress
    rw [if_pos ⟨h, rfl⟩]
  · intro trade portfolio cfg hsym hnone f t a c1 c2
    unfold sellDecision
    cases hb : bestBalanceOf cfg (sellTokenBalances trade portfolio) with
    | none => simp
    | some best =>
      rw [hnone]
      simp [hsym]
  · intro f t fc tc a bal p hexec hsame
    unfold executeTrade at hexec
    split at hexec
    · exact absurd hexec (by simp)
    · rename_i hguard
      have hne : f ≠ t ∨ fc ≠ tc := by
        by_cases hft : f = t
        · right
          intro hctc
          exact hguard ⟨hft, by rw [hctc]⟩
        · left; exact hft
      split at hexec
      · rename_i fi ti hf ht
        dsimp only at hexec
        split at hexec
        · have hp : p =
              { fromToken := fi.address
                toToken := ti.address
                amount := a
                fromChain := fi.chain
                fromSpecificChain := fi.specificChain.str
                toChain := ti.chain
                toSpecificChain := ti.specificChain.str } := by
            cases hexec
            rfl
          have hok := resolvedPairOk_of_ne f t fc tc hne
          unfold resolvedPairOk at hok
          rw [hf, ht] at hok
          simp only [Bool.not_eq_true', Bool.and_eq_false_iff,
            decide_eq_false_iff_not] at hok
          rw [hp] at hsame
          rcases hok with hok | hok
          · exact hok hsame.1
          · exact hok (SupportedChain.str_inj _ _ hsame.2)
        · exact absurd hexec (by simp)
      · exact absurd hexec (by simp)
  · intro fa ta a fc c1 tc c2 bal p hexec hsame
    unfold executeTradeByAddress at hexec
    split at hexec
    · exact absurd hexec (by simp)
    · rename_i hguard
      dsimp only at hexec
      split at hexec
      · have hp : p =
            { fromToken := fa
              toToken := ta
              amount := a
              fromChain := fc
              fromSpecificChain := c1.str
              toChain := tc
              toSpecificChain := c2.str } := by
          cases hexec
          rfl
        rw [hp] at hsame
        exact hguard ⟨hsame.1, SupportedChain.str_inj _ _ hsame.2⟩
      · exact absurd hexec (by simp)

/-- Configuration with no positively weighted target symbol. -/
def cfgC8nt : ConfigType :=
  { cfgW3 with targetAllocation := [("WETH", 0)] }

/-- Payload of a legitimate `USDC → USDT` trade on `eth`, used to witness
the resolved-sides property. -/
def payloadC8 : TradePayload :=
  { fromToken := "0xA0b86991c6218b36c1d19D4a2e9Eb0cE3606eB48"
    toToken := "0xdAC17F958D2ee523a2206206994597C13D831ec7"
    amount := 5
    fromChain := "evm"
    fromSpecificChain := "eth"
    toChain := "evm"
    toSpecificChain := "eth" }

/-- Witness for the amended C8: the three guards fire at concrete inputs,
and a concrete executed `USDC → USDT` call has distinct sides. -/
theorem C8_no_self_trade_amended_witness :
    executeTrade .USDC .USDC 5 (some .eth) (some .eth) balC8 =
      .invalidTrade ∧
    executeTradeByAddress "0xAbC" "0xabc" 1 "evm" .eth "evm" .eth [] =
      .invalidTrade ∧
    sellDecision subTradeC4b portC4b cfgC8nt ≠
      .doTrade "USDC" "USDC" 1 "eth" "eth" ∧
    ¬(payloadC8.fromToken = payloadC8.toToken ∧
      payloadC8.fromSpecificChain = payloadC8.toSpecificChain) := by
  obtain ⟨h1, h2, h3, h4, _⟩ := C8_no_self_trade_amended
  refine ⟨h1 .USDC .USDC 5 (some .eth) balC8 rfl,
    h2 "0xAbC" "0xabc" 1 "evm" .eth "evm" [] (by decide),
    h3 subTradeC4b portC4b cfgC8nt rfl rfl "USDC" "USDC" 1 "eth" "eth",
    h4 .USDC .USDT .eth .eth 5 balC8 payloadC8 rfl⟩

/-- `REBALANCING_CONFIG.maxIterations = 10` from `constants.ts`. -/
def REBALANCING_maxIterations : ℕ := 10

/-- `REBALANCING_CONFIG.convergenceThreshold = 0.005` from `constants.ts`. -/
def REBALANCING_convergenceThreshold : ℚ := 1 / 200

/-- `REBALANCING_CONFIG.maxTradesPerIteration = 3` from `constants.ts`. -/
def REBALANCING_maxTradesPerIteration : ℕ := 3

/-- The stablecoin symbol list `["USDC", "USDbC", "DAI", "USDT"]` used by
both the buy branch of `executeSingleTrade` and the loop's bootstrap
guard. -/
def stablecoinSymbols : List String := ["USDC", "USDbC", "DAI", "USDT"]

/-- Stablecoin balances with positive amount (`executeRebalancingStep`
lines 313-317 and `utils.ts` lines 214-217). -/
def stablecoinBalancesOf (balances : List Balance) : List Balance :=
  balances.filter fun b =>
    stablecoinSymbols.contains b.symbol && decide (b.amount > 0)

/-- One pass of the loop's target-symbol planning (`executeRebalancingStep`
lines 235-260): as in the analyzer but with preferred chain
`config.consolidateToChain || "eth"`. -/
def iterPlanTargetEntry (cfg : ConfigType) (balances : List Balance)
    (prices : List (String × ℚ)) (p : String × ℚ) : Option TradeParams :=
  let symbol := p.1
  let targetPercent := p.2
  let currentAmount := lookupD (symbolTotals balances) symbol 0
  let price := priceOf prices symbol
  let targetValueUSD := totalValueUSD balances prices * targetPercent
  let targetAmount := targetAmountOf price targetValueUSD
  let differenceAmount := targetAmount - currentAmount
  let differenceValueUSD := |differenceAmount * price|
  if differenceValueUSD ≥ cfg.minTradeValueUSD then
    some
      { action := if differenceAmount > 0 then .buy else .sell
        symbol := symbol
        currentAmount := currentAmount
        targetAmount := targetAmount
        differenceAmount := |differenceAmount|
        differenceValueUSD := differenceValueUSD
        priority := allocationDriftOf cfg balances prices symbol * 100
        preferredChain := cfg.consolidateToChain.getD "eth" }
  else none

/-- One pass of the loop's zero-target planning (`executeRebalancingStep`
lines 263-288): as in the analyzer plus the explicit `amount > 0` check. -/
def iterPlanZeroEntry (cfg : ConfigType) (prices : List (String × ℚ))
    (p : String × ℚ) : Option TradeParams :=
  let symbol := p.1
  let amount := p.2
  let targetPercent := lookupD cfg.targetAllocation symbol 0
  let price := priceOf prices symbol
  let currentValueUSD := amount * price
  if targetPercent = 0 ∧ currentValueUSD ≥ cfg.minTradeValueUSD ∧ amount > 0 then
    some
      { action := .sell
        symbol := symbol
        currentAmount := amount
        targetAmount := 0
        differenceAmount := amount
        differenceValueUSD := currentValueUSD
        priority := 50
        preferredChain := cfg.consolidateToChain.getD "eth" }
  else none

/-- `iterationRebalancingPlan` (`executeRebalancingStep` lines 232-288). -/
def iterationRebalancingPlan (cfg : ConfigType) (balances : List Balance)
    (prices : List (String × ℚ)) : List TradeParams :=
  cfg.targetAllocation.filterMap (iterPlanTargetEntry cfg balances prices) ++
    (symbolTotals balances).filterMap (iterPlanZeroEntry cfg prices)

/-- `nonTargetTokens` from `executeRebalancingStep` lines 325-336: held
tokens with zero target weight (after normalization), positive amount, and
not a stablecoin. -/
def nonTargetTokens (cfg : ConfigType) (balances : List Balance) :
    List Balance :=
  balances.filter fun b =>
    decide (lookupD cfg.targetAllocation (normalizeSymbol b.symbol) 0 = 0) &&
      decide (b.amount > 0) && !(stablecoinSymbols.contains b.symbol)

/-- `nonTargetTokens.reduce(...)` from `executeRebalancingStep` lines
340-351: the token of largest USD value (the later one on ties, as the JS
comparison is strict). -/
def largestNonTargetToken (prices : List (String × ℚ)) (b0 : Balance)
    (rest : List Balance) : Balance :=
  rest.foldl
    (fun max current =>
      if max.amount * priceOf prices (normalizeSymbol max.symbol) >
          current.amount * priceOf prices (normalizeSymbol current.symbol) then
        max
      else current) b0

/-- A `TradeExecutionResult` as the loop stores it: only the success flag
of the external call is consulted afterwards. -/
structure TradeExecutionResult where
  success : Bool
deriving DecidableEq, Repr

/-- The arguments of the `executeTrade` call issued by the bootstrap guard
(`executeRebalancingStep` lines 357-369). -/
structure ExchangeRequest where
  fromSymbol : String
  toSymbol : String
  amount : ℚ
  fromSpecificChain : String
  toSpecificChain : String
deriving DecidableEq, Repr

/-- The bootstrap guard sells the chosen token into the bridge asset USDC
on the token's own chain. -/
def bootstrapSellRequest (tok : Balance) : ExchangeRequest :=
  { fromSymbol := tok.symbol
    toSymbol := "USDC"
    amount := tok.amount
    fromSpecificChain := tok.specificChain
    toSpecificChain := tok.specificChain }

/-- `prices.prices[sym === "USDbC" ? "USDC" : sym] || 1`: the stablecoin
price default used only in the buy branch (`utils.ts` lines 232-272). -/
def stablePrice1 (prices : List (String × ℚ)) (sym : String) : ℚ :=
  jsOrD (lookupQ prices (if sym = "USDbC" then "USDC" else sym)) 1

/-- The funding stablecoin and capped amount chosen by the buy branch of
`executeSingleTrade` (`utils.ts` lines 214-277): `none` when no stablecoin
balance exists (`result: null`); otherwise the first balance (sorted
descending by value) that covers the trade, else the largest, with the
trade capped at its available value. -/
def buySelection (trade : SubTradeParams) (portfolio : List Balance)
    (prices : List (String × ℚ)) : Option (Balance × ℚ) :=
  match sortDescBy (fun b => b.amount * stablePrice1 prices b.symbol)
      (stablecoinBalancesOf portfolio) with
  | [] => none
  | s0 :: rest =>
      let best := ((s0 :: rest).find? fun b =>
        decide (b.amount * stablePrice1 prices b.symbol ≥
          trade.differenceValueUSD)).getD s0
      some (best, min trade.differenceValueUSD
        (best.amount * stablePrice1 prices best.symbol))

/-- The sell branch of `executeSingleTrade` as the loop sees it:
`result: null` (no balance or `USDC→USDC` skip) gives `none`; an issued
call returns the oracle's success flag. -/
def sellOutcome (trade : SubTradeParams) (portfolio : List Balance)
    (cfg : ConfigType) (apiOk : Bool) : Option TradeExecutionResult :=
  match sellDecision trade portfolio cfg with
  | .noBalance => none
  | .skipInvalid => none
  | .doTrade _ _ _ _ _ => some { success := apiOk }

/-- The buy branch of `executeSingleTrade` as the loop sees it. -/
def buyOutcome (trade : SubTradeParams) (portfolio : List Balance)
    (prices : List (String × ℚ)) (apiOk : Bool) :
    Option TradeExecutionResult :=
  match buySelection trade portfolio prices with
  | none => none
  | some _ => some { success := apiOk }

/-- The external responses one loop pass can consume: the freshly fetched
portfolio, the bootstrap sell's success, per-index sub-trade API results,
and the re-fetched portfolio before each buy sub-trade. -/
structure IterationData where
  balances : List Balance
  bootstrapSellOk : Bool
  sellOk : ℕ → Bool
  buyOk : ℕ → Bool
  buyPortfolios : ℕ → List Balance

/-- What one pass of the `while` loop does after its convergence and
empty-plan checks. -/
inductive IterationOutcome
  | converged
  | exhausted
  | bootstrapPass (tokenToSell : Balance) (request : ExchangeRequest)
      (delayMs : ℕ)
  | tradePass (sellSubs buySubs : List SubTradeParams)
deriving Repr

/-- The sorted, capped, split sub-trades executed by a normal pass
(`executeRebalancingStep` lines 387-409). -/
def tradePassOf (cfg : ConfigType) (prices : List (String × ℚ))
    (d : IterationData) : IterationOutcome :=
  let plan := iterationRebalancingPlan cfg d.balances prices
  let sorted := sortDescBy (fun e => e.priority) plan
  let toExec := sorted.take REBALANCING_maxTradesPerIteration
  .tradePass
    ((toExec.filter fun e => decide (e.action = .sell)).flatMap fun tr =>
      splitTradeIntoSubTrades tr (totalValueUSD d.balances prices))
    ((toExec.filter fun e => decide (e.action = .buy)).flatMap fun tr =>
      splitTradeIntoSubTrades tr (totalValueUSD d.balances prices))

/-- The control flow of one pass of the rebalancing `while` loop
(`executeRebalancingStep` lines 153-481): convergence check, plan build,
empty-plan exit, bootstrap guard, else a normal trade pass. -/
def classifyIteration (cfg : ConfigType) (prices : List (String × ℚ))
    (d : IterationData) (force : Bool) : IterationOutcome :=
  if (!force && decide (maxDriftOf cfg d.balances prices ≤
      REBALANCING_convergenceThreshold)) = true then
    .converged
  else if iterationRebalancingPlan cfg d.balances prices = [] then
    .exhausted
  else if ((iterationRebalancingPlan cfg d.balances prices).filter fun e =>
        decide (e.action = .buy)) ≠ [] ∧
      ((iterationRebalancingPlan cfg d.balances prices).filter fun e =>
        decide (e.action = .sell)) = [] ∧
      stablecoinBalancesOf d.balances = [] then
    match nonTargetTokens cfg d.balances with
    | [] => tradePassOf cfg prices d
    | b0 :: rest =>
        .bootstrapPass (largestNonTargetToken prices b0 rest)
          (bootstrapSellRequest (largestNonTargetToken prices b0 rest))
          SUB_TRADE_DELAY_MS
  else tradePassOf cfg prices d

/-- The loop's mutable state: the iteration counter, the (mutated)
`config.forceRebalance` flag, `allRebalancingResults`, and
`totalVolumeUSD`. -/
structure LoopState where
  iterationsCompleted : ℕ
  forceRebalance : Bool
  results : List TradeExecutionResult
  totalVolumeUSD : ℚ
deriving DecidableEq, Repr

/-- How the loop exits: convergence, plan exhaustion, or the iteration
cap. -/
inductive StopReason
  | converged
  | exhausted
  | capReached
deriving DecidableEq, Repr

/-- `if (success.result) { push result; if (result.success) volume += v }`
(`executeRebalancingStep` lines 428-433 and 463-468). -/
def applyOutcome (st : LoopState) (outcome : Option TradeExecutionResult)
    (valueUSD : ℚ) : LoopState :=
  match outcome with
  | none => st
  | some r =>
      { st with
          results := st.results ++ [r]
          totalVolumeUSD := st.totalVolumeUSD +
            if r.success then valueUSD else 0 }

/-- Sequential execution of the sell sub-trades (lines 416-436). -/
def runSellSubs (cfg : ConfigType) (portfolio : List Balance)
    (ok : ℕ → Bool) (subs : List SubTradeParams) (st : LoopState) :
    LoopState :=
  subs.enum.foldl
    (fun st p => applyOutcome st (sellOutcome p.2 portfolio cfg (ok p.1))
      p.2.differenceValueUSD) st

/-- Sequential execution of the buy sub-trades, each against a freshly
fetched portfolio (lines 439-471). -/
def runBuySubs (prices : List (String × ℚ))
    (ports : ℕ → List Balance) (ok : ℕ → Bool)
    (subs : List SubTradeParams) (st : LoopState) : LoopState :=
  subs.enum.foldl
    (fun st p => applyOutcome st (buyOutcome p.2 (ports p.1) prices (ok p.1))
      p.2.differenceValueUSD) st

/-- One pass of the `while` loop.  The counter is incremented on entry
(line 154); a bootstrap pass appends the sell result only on success, adds
its volume, waits, and restarts via `continue` — skipping the
`config.forceRebalance = false` at line 480, which only a completed trade
pass reaches. -/
def runIteration (cfg : ConfigType) (prices : List (String × ℚ))
    (d : IterationData) (st : LoopState) : LoopState × Option StopReason :=
  let st1 := { st with iterationsCompleted := st.iterationsCompleted + 1 }
  match classifyIteration cfg prices d st.forceRebalance with
  | .converged => (st1, some .converged)
  | .exhausted => (st1, some .exhausted)
  | .bootstrapPass tok _ _ =>
      let st2 :=
        if d.bootstrapSellOk then
          { st1 with
              results := st1.results ++ [{ success := true }]
              totalVolumeUSD := st1.totalVolumeUSD +
                tok.amount * priceOf prices tok.symbol }
        else st1
      (st2, none)
  | .tradePass sellSubs buySubs =>
      let st2 := runSellSubs cfg d.balances d.sellOk sellSubs st1
      let st3 := runBuySubs prices d.buyPortfolios d.buyOk buySubs st2
      ({ st3 with forceRebalance := false }, none)

/-- The `while (iterationsCompleted < maxIterations)` loop, driven by fuel
`maxIterations - iterationsCompleted`: each pass consumes one unit, so
fuel 0 is exactly the iteration cap. -/
def runLoop (cfg : ConfigType) (prices : List (String × ℚ))
    (oracle : ℕ → IterationData) : ℕ → LoopState → LoopState × StopReason
  | 0, st => (st, .capReached)
  | fuel + 1, st =>
      match runIteration cfg prices (oracle st.iterationsCompleted) st with
      | (st1, some r) => (st1, r)
      | (st1, none) => runLoop cfg prices oracle fuel st1

/-- `executeRebalancingStep`'s loop from its initial state. -/
def executeRebalancingLoop (cfg : ConfigType)
    (prices : List (String × ℚ)) (oracle : ℕ → IterationData) :
    LoopState × StopReason :=
  runLoop cfg prices oracle REBALANCING_maxIterations
    { iterationsCompleted := 0, forceRebalance := cfg.forceRebalance,
      results := [], totalVolumeUSD := 0 }

/-- C6 (amended): in every loop pass that is not stopped by the
convergence check, whose plan is non-empty and contains only buy actions,
while the portfolio holds no stablecoin balance and some non-target,
non-stablecoin holding exists, the engine sells the single largest such
holding (by USD value) into the bridge asset USDC on its own chain,
appends the result to the execution results when the sell succeeds (and
adds its volume), requests the fixed 3000 ms delay, and restarts the
iteration via `continue` with the force flag untouched — while the pass
still increments `iterationsCompleted` and therefore counts toward the
iteration cap exactly like a full trade pass. -/
theorem C6_bootstrap_guard_amended (cfg : ConfigType)
    (prices : List (String × ℚ)) (d : IterationData) (st : LoopState)
    (b0 : Balance) (rest : List Balance)
    (hnc : (!st.forceRebalance && decide (maxDriftOf cfg d.balances prices ≤
      REBALANCING_convergenceThreshold)) = false)
    (hplan : iterationRebalancingPlan cfg d.balances prices ≠ [])
    (hbuys : ((iterationRebalancingPlan cfg d.balances prices).filter fun e =>
      decide (e.action = .buy)) ≠ [])
    (hsells : ((iterationRebalancingPlan cfg d.balances prices).filter fun e =>
      decide (e.action = .sell)) = [])
    (hstables : stablecoinBalancesOf d.balances = [])
    (hnt : nonTargetTokens cfg d.balances = b0 :: rest) :
    classifyIteration cfg prices d st.forceRebalance =
      .bootstrapPass (largestNonTargetToken prices b0 rest)
        (bootstrapSellRequest (largestNonTargetToken prices b0 rest))
        SUB_TRADE_DELAY_MS ∧
    runIteration cfg prices d st =
      ({ st with
           iterationsCompleted := st.iterationsCompleted + 1
           results := st.results ++
             (if d.bootstrapSellOk then [{ success := true }] else [])
           totalVolumeUSD := st.totalVolumeUSD +
             (if d.bootstrapSellOk then
               (largestNonTargetToken prices b0 rest).amount *
                 priceOf prices
                   (largestNonTargetToken prices b0 rest).symbol
             else 0) }, none) := by
  have hclass : classifyIteration cfg prices d st.forceRebalance =
      .bootstrapPass (largestNonTargetToken prices b0 rest)
        (bootstrapSellRequest (largestNonTargetToken prices b0 rest))
        SUB_TRADE_DELAY_MS := by
    unfold classifyIteration
    rw [hnc]
    rw [if_neg (by simp)]
    rw [if_neg hplan, if_pos ⟨hbuys, hsells, hstables⟩, hnt]
  refine ⟨hclass, ?_⟩
  unfold runIteration
  rw [hclass]
  cases hok : d.bootstrapSellOk <;> (cases st; simp)

/-- C7 (amended): the force-rebalance flag is cleared only at the end of a
full trade pass; a bootstrap pass (`continue`) leaves it unchanged, so the
bypass can outlive the first iteration.  Once the flag is false, the loop
stops with `converged` at the first pass whose max drift is at or below
the convergence threshold. -/
theorem C7_force_flag_amended (cfg : ConfigType)
    (prices : List (String × ℚ)) :
    (∀ (d : IterationData) (st : LoopState)
        (sells buys : List SubTradeParams),
      classifyIteration cfg prices d st.forceRebalance =
        .tradePass sells buys →
      (runIteration cfg prices d st).1.forceRebalance = false) ∧
    (∀ (d : IterationData) (st : LoopState) (tok : Balance)
        (req : ExchangeRequest) (delay : ℕ),
      classifyIteration cfg prices d st.forceRebalance =
        .bootstrapPass tok req delay →
      (runIteration cfg prices d st).1.forceRebalance =
        st.forceRebalance) ∧
    (∀ (oracle : ℕ → IterationData) (st : LoopState) (fuel : ℕ),
      st.forceRebalance = false →
      maxDriftOf cfg (oracle st.iterationsCompleted).balances prices ≤
        REBALANCING_convergenceThreshold →
      runLoop cfg prices oracle (fuel + 1) st =
        ({ st with iterationsCompleted := st.iterationsCompleted + 1 },
          .converged)) := by
  refine ⟨?_, ?_, ?_⟩
  · intro d st sells buys h
    unfold runIteration
    rw [h]
  · intro d st tok req delay h
    unfold runIteration
    rw [h]
    cases d.bootstrapSellOk <;> rfl
  · intro oracle st fuel hforce hdrift
    have hclass : classifyIteration cfg prices
        (oracle st.iterationsCompleted) st.forceRebalance = .converged := by
      unfold classifyIteration
      rw [if_pos (by rw [hforce]; simp [hdrift])]
    unfold runLoop
    unfold runIteration
    rw [hclass]

/-- Target-symbol holding for the loop fixtures: $2,988 of WETH. -/
def balWETHc6 : Balance :=
  { tokenAddress := "0xweth", amount := 2988, specificChain := "eth",
    symbol := "WETH", chain := "evm" }

/-- Largest non-target holding: $7 of `FOO`. -/
def balFOOc6 : Balance :=
  { tokenAddress := "0xfoo", amount := 7, specificChain := "eth",
    symbol := "FOO", chain := "evm" }

/-- Smaller non-target holding: $5 of `BAR`. -/
def balBARc6 : Balance :=
  { tokenAddress := "0xbar", amount := 5, specificChain := "eth",
    symbol := "BAR", chain := "evm" }

/-- Loop-fixture portfolio: no stablecoins, WETH near target, two small
non-target tokens. -/
def balC6 : List Balance := [balWETHc6, balFOOc6, balBARc6]

/-- Loop-fixture prices: everything at $1. -/
def prC6 : List (String × ℚ) := [("WETH", 1), ("FOO", 1), ("BAR", 1)]

/-- Loop-fixture configuration: target 100% WETH, forced rebalance,
`minTradeValueUSD = 10` so the $7 and $5 holdings are below the trade
floor (hence no sell entries) while the $12 WETH gap is above it. -/
def cfgC6 : ConfigType :=
  { targetAllocation := [("WETH", 1)]
    consolidateToChain := none
    rebalanceThreshold := 1 / 1000
    minTradeValueUSD := 10
    maxSlippage := "2.0"
    forceRebalance := true
    skipConsolidation := false }

/-- Loop-fixture oracle data: the fixed portfolio, with every external
trade call failing. -/
def dataC6 : IterationData :=
  { balances := balC6
    bootstrapSellOk := false
    sellOk := fun _ => false
    buyOk := fun _ => false
    buyPortfolios := fun _ => [] }

/-- Constant oracle: every pass observes the same portfolio. -/
def oracleC6 : ℕ → IterationData := fun _ => dataC6

/-- The single plan entry the loop builds from `balC6`: buy $12 of WETH. -/
def entryC6 : TradeParams :=
  { action := .buy, symbol := "WETH", currentAmount := 2988,
    targetAmount := 3000, differenceAmount := 12, differenceValueUSD := 12,
    priority := 2 / 5, preferredChain := "eth" }

theorem symbolTotals_balC6 :
    symbolTotals balC6 = [("WETH", 2988), ("FOO", 7), ("BAR", 5)] := rfl

theorem totalValueUSD_C6 : totalValueUSD balC6 prC6 = 3000 := by
  have hpW : priceOf prC6 "WETH" = 1 := rfl
  have hpF : priceOf prC6 "FOO" = 1 := rfl
  have hpB : priceOf prC6 "BAR" = 1 := rfl
  unfold totalValueUSD
  rw [symbolTotals_balC6]
  simp only [List.foldl_cons, List.foldl_nil, hpW, hpF, hpB]
  norm_num

theorem allocationDrift_C6 :
    allocationDriftOf cfgC6 balC6 prC6 "WETH" = 1 / 250 := by
  have hpW : priceOf prC6 "WETH" = 1 := rfl
  have hlook : lookupD (symbolTotals balC6) "WETH" 0 = 2988 := rfl
  have htgt : lookupD cfgC6.targetAllocation "WETH" 0 = 1 := rfl
  unfold allocationDriftOf currentAllocationPercent
  rw [totalValueUSD_C6, hpW, hlook, htgt]
  rw [if_pos (by norm_num)]
  norm_num

theorem maxDrift_C6 : maxDriftOf cfgC6 balC6 prC6 = 1 / 250 := by
  have hpW : priceOf prC6 "WETH" = 1 := rfl
  have hlook : lookupD (symbolTotals balC6) "WETH" 0 = 2988 := rfl
  unfold maxDriftOf
  rw [show cfgC6.targetAllocation = [("WETH", 1)] from rfl]
  simp only [List.foldl_cons, List.foldl_nil]
  unfold currentAllocationPercent
  rw [totalValueUSD_C6, hpW, hlook]
  rw [if_pos (by norm_num)]
  norm_num

theorem iterPlanTarget_C6 :
    iterPlanTargetEntry cfgC6 balC6 prC6 ("WETH", 1) = some entryC6 := by
  have hpW : priceOf prC6 "WETH" = 1 := rfl
  have hlook : lookupD (symbolTotals balC6) "WETH" 0 = 2988 := rfl
  unfold iterPlanTargetEntry
  rw [totalValueUSD_C6]
  dsimp only
  rw [hpW, hlook, allocationDrift_C6]
  have hta : targetAmountOf 1 (3000 * 1) = 3000 := by
    unfold targetAmountOf
    rw [if_pos (by norm_num)]
    norm_num
  rw [hta]
  rw [if_pos (by norm_num [cfgC6])]
  have h12 : (3000 : ℚ) - 2988 = 12 := by norm_num
  rw [h12]
  rw [if_pos (by norm_num)]
  unfold entryC6
  norm_num [cfgC6]

theorem iterPlan_C6 :
    iterationRebalancingPlan cfgC6 balC6 prC6 = [entryC6] := by
  have hZw : iterPlanZeroEntry cfgC6 prC6 ("WETH", 2988) = none := by
    unfold iterPlanZeroEntry
    rw [if_neg]
    rw [show lookupD cfgC6.targetAllocation "WETH" 0 = 1 from rfl]
    norm_num
  have hZf : iterPlanZeroEntry cfgC6 prC6 ("FOO", 7) = none := by
    unfold iterPlanZeroEntry
    rw [if_neg]
    rw [show priceOf prC6 "FOO" = 1 from rfl]
    norm_num [cfgC6]
  have hZb : iterPlanZeroEntry cfgC6 prC6 ("BAR", 5) = none := by
    unfold iterPlanZeroEntry
    rw [if_neg]
    rw [show priceOf prC6 "BAR" = 1 from rfl]
    norm_num [cfgC6]
  unfold iterationRebalancingPlan
  rw [symbolTotals_balC6]
  rw [show cfgC6.targetAllocation = [("WETH", 1)] from rfl]
  simp only [List.filterMap_cons, List.filterMap_nil, iterPlanTarget_C6,
    hZw, hZf, hZb]
  rfl

theorem classify_C6_force :
    classifyIteration cfgC6 prC6 dataC6 true =
      .bootstrapPass balFOOc6 (bootstrapSellRequest balFOOc6)
        SUB_TRADE_DELAY_MS := by
  have hnt : nonTargetTokens cfgC6 balC6 = [balFOOc6, balBARc6] := rfl
  have hlargest : largestNonTargetToken prC6 balFOOc6 [balBARc6] = balFOOc6 := by
    unfold largestNonTargetToken
    simp only [List.foldl_cons, List.foldl_nil]
    rw [show priceOf prC6 (normalizeSymbol balFOOc6.symbol) = 1 from rfl,
      show priceOf prC6 (normalizeSymbol balBARc6.symbol) = 1 from rfl]
    rw [if_pos (by norm_num [balFOOc6, balBARc6])]
  unfold classifyIteration
  rw [show dataC6.balances = balC6 from rfl, iterPlan_C6]
  rw [if_neg (by simp)]
  rw [if_neg (by simp)]
  rw [if_pos ⟨by simp [entryC6], by simp [entryC6], rfl⟩]
  rw [hnt]
  dsimp only
  rw [hlargest]

theorem classify_C6_noforce :
    classifyIteration cfgC6 prC6 dataC6 false = .converged := by
  unfold classifyIteration
  rw [if_pos]
  rw [show dataC6.balances = balC6 from rfl, maxDrift_C6]
  simp only [Bool.not_false, Bool.true_and, decide_eq_true_eq]
  rw [REBALANCING_convergenceThreshold]
  norm_num

theorem runIteration_C6 (st : LoopState) (h : st.forceRebalance = true) :
    runIteration cfgC6 prC6 dataC6 st =
      ({ st with iterationsCompleted := st.iterationsCompleted + 1 },
        none) := by
  unfold runIteration
  rw [h, classify_C6_force]
  rw [show dataC6.bootstrapSellOk = false from rfl]
  simp

theorem runLoop_C6 (fuel : ℕ) :
    ∀ st : LoopState, st.forceRebalance = true →
      runLoop cfgC6 prC6 oracleC6 fuel st =
        ({ st with
             iterationsCompleted := st.iterationsCompleted + fuel },
          .capReached) := by
  induction fuel with
  | zero =>
      intro st h
      cases st
      rfl
  | succ n ih =>
      intro st h
      unfold runLoop
      rw [show oracleC6 st.iterationsCompleted = dataC6 from rfl,
        runIteration_C6 st h]
      show runLoop cfgC6 prC6 oracleC6 n
        { st with iterationsCompleted := st.iterationsCompleted + 1 } = _
      rw [ih _ (by simp [h])]
      have h3 : st.iterationsCompleted + 1 + n =
          st.iterationsCompleted + (n + 1) := by omega
      simp [h3]

/-- Counterexample to C6 as stated.  With `balC6` every pass satisfies the
bootstrap conditions (only a buy planned, no stablecoins, non-target
holdings present), so every pass is a bootstrap pass — yet the run ends
with `capReached` after exactly 10 passes: the `iterationsCompleted++` at
the top of the loop body runs before the bootstrap `continue`, so a
bootstrap pass counts toward the iteration cap exactly like a full trade
pass.  The failing bootstrap sells are also never appended to the results
(the code pushes the result only on success). -/
theorem C6_bootstrap_guard_counterexample :
    executeRebalancingLoop cfgC6 prC6 oracleC6 =
      ({ iterationsCompleted := 10, forceRebalance := true, results := [],
         totalVolumeUSD := 0 }, .capReached) ∧
    classifyIteration cfgC6 prC6 dataC6 true =
      .bootstrapPass balFOOc6 (bootstrapSellRequest balFOOc6)
        SUB_TRADE_DELAY_MS := by
  constructor
  · unfold executeRebalancingLoop
    have h := runLoop_C6 REBALANCING_maxIterations
      { iterationsCompleted := 0, forceRebalance := cfgC6.forceRebalance,
        results := [], totalVolumeUSD := 0 } rfl
    rw [h]
    rfl
  · exact classify_C6_force

/-- Witness for the amended C6: the first pass over `balC6` is a bootstrap
pass; it increments the iteration counter, appends nothing (the sell
fails), keeps the force flag, and continues. -/
theorem C6_bootstrap_guard_amended_witness :
    runIteration cfgC6 prC6 dataC6
        { iterationsCompleted := 0, forceRebalance := true, results := [],
          totalVolumeUSD := 0 } =
      ({ iterationsCompleted := 1, forceRebalance := true, results := [],
         totalVolumeUSD := 0 }, none) := by
  have h := (C6_bootstrap_guard_amended cfgC6 prC6 dataC6
    { iterationsCompleted := 0, forceRebalance := true, results := [],
      totalVolumeUSD := 0 }
    balFOOc6 [balBARc6]
    rfl
    (by rw [show dataC6.balances = balC6 from rfl, iterPlan_C6]; simp)
    (by rw [show dataC6.balances = balC6 from rfl, iterPlan_C6]
        simp [entryC6])
    (by rw [show dataC6.balances = balC6 from rfl, iterPlan_C6]
        simp [entryC6])
    rfl
    rfl).2
  simpa using h

/-- Counterexample to C7 as stated.  The first iteration over `balC6` is a
bootstrap pass whose `continue` skips the `config.forceRebalance = false`
statement, so after the first iteration the flag is still set — and the
second iteration again bypasses the convergence check (the same data with
the flag cleared would stop with `converged`, as max drift `1/250` is
below the `1/200` threshold). -/
theorem C7_force_flag_counterexample :
    runIteration cfgC6 prC6 dataC6
        { iterationsCompleted := 0, forceRebalance := true, results := [],
          totalVolumeUSD := 0 } =
      ({ iterationsCompleted := 1, forceRebalance := true, results := [],
         totalVolumeUSD := 0 }, none) ∧
    classifyIteration cfgC6 prC6 dataC6 false = .converged ∧
    runIteration cfgC6 prC6 dataC6
        { iterationsCompleted := 1, forceRebalance := true, results := [],
          totalVolumeUSD := 0 } =
      ({ iterationsCompleted := 2, forceRebalance := true, results := [],
         totalVolumeUSD := 0 }, none) := by
  exact ⟨runIteration_C6 _ rfl, classify_C6_noforce, runIteration_C6 _ rfl⟩

/-- Witness for the amended C7: with the flag already false, the loop
stops as `converged` at the first pass (drift `1/250 ≤ 1/200`); and a
bootstrap pass leaves a set flag set. -/
theorem C7_force_flag_amended_witness :
    runLoop cfgC6 prC6 oracleC6 1
        { iterationsCompleted := 0, forceRebalance := false, results := [],
          totalVolumeUSD := 0 } =
      ({ iterationsCompleted := 1, forceRebalance := false, results := [],
         totalVolumeUSD := 0 }, .converged) ∧
    (runIteration cfgC6 prC6 dataC6
        { iterationsCompleted := 0, forceRebalance := true, results := [],
          totalVolumeUSD := 0 }).1.forceRebalance = true := by
  obtain ⟨h1, h2, h3⟩ := C7_force_flag_amended cfgC6 prC6
  constructor
  · have h := h3 oracleC6
      { iterationsCompleted := 0, forceRebalance := false, results := [],
        totalVolumeUSD := 0 } 0 rfl
      (by rw [show (oracleC6 0).balances = balC6 from rfl, maxDrift_C6,
            REBALANCING_convergenceThreshold]
          norm_num)
    simpa using h
  · have h := h2 dataC6
      { iterationsCompleted := 0, forceRebalance := true, results := [],
        totalVolumeUSD := 0 }
      balFOOc6 (bootstrapSellRequest balFOOc6) SUB_TRADE_DELAY_MS
      classify_C6_force
    simpa using h

/-- `DEFAULT_TARGET_ALLOCATION` from `constants.ts`: 100% USDT. -/
def DEFAULT_TARGET_ALLOCATION : List (String × ℚ) :=
  [("USDC", 0), ("WETH", 0), ("USDT", 1), ("SOL", 0)]

/-- `if (inputData.xPercent && inputData.xPercent > 0) rawAllocation.X = x`
(`fetch-prices-step`, lines 40-51): only a present, positive percentage
enters the raw allocation (`x && x > 0` is `x > 0` on numbers). -/
def pickAllocationEntry (sym : String) (x : Option ℚ) : List (String × ℚ) :=
  match x with
  | none => []
  | some v => if 0 < v then [(sym, v)] else []

/-- The target-allocation construction of `fetchPricesStep` (lines 36-98),
before any external call: default allocation when no positive percentage
was provided, the thrown error as `.error`, else the normalized
allocation. -/
def buildTargetAllocation (usdcPercent wethPercent usdtPercent solPercent :
    Option ℚ) : Except String (List (String × ℚ)) :=
  let rawAllocation :=
    pickAllocationEntry "USDC" usdcPercent ++
      pickAllocationEntry "WETH" wethPercent ++
        pickAllocationEntry "USDT" usdtPercent ++
          pickAllocationEntry "SOL" solPercent
  if rawAllocation.isEmpty then .ok DEFAULT_TARGET_ALLOCATION
  else
    let totalPercent := (rawAllocation.map (fun p => p.2)).sum
    if totalPercent ≤ 0 then
      .error "Allocation percentages must sum to a positive number"
    else
      .ok (rawAllocation.map fun p => (p.1, p.2 / totalPercent))

/-- Counterexample to C9 as stated: percentages `0, 0, 0, 0` sum to
`0 ≤ 0`, yet the run does not fail — the zero values never enter the raw
allocation, which is therefore empty, and the step silently falls back to
the default target allocation and proceeds to the price fetch.  The
positive-sum guard is unreachable. -/
theorem C9_nonpositive_sum_counterexample :
    buildTargetAllocation (some 0) (some 0) (some 0) (some 0) =
      .ok DEFAULT_TARGET_ALLOCATION ∧
    (0 : ℚ) + 0 + 0 + 0 ≤ 0 := by
  exact ⟨rfl, by norm_num⟩

theorem pickAllocationEntry_pos (sym : String) (x : Option ℚ) :
    ∀ p ∈ pickAllocationEntry sym x, 0 < p.2 := by
  intro p hp
  cases x with
  | none => exact absurd hp (List.not_mem_nil p)
  | some v =>
      unfold pickAllocationEntry at hp
      dsimp only at hp
      by_cases hv : 0 < v
      · rw [if_pos hv, List.mem_singleton] at hp
        rw [hp]
        exact hv
      · rw [if_neg hv] at hp
        exact absurd hp (List.not_mem_nil p)

/-- C9 (amended): for every input, the target-allocation construction
never fails before the price fetch — only positive percentages enter the
raw allocation, so its total is positive whenever it is non-empty and the
`≤ 0` error is unreachable; inputs whose percentages are all absent or
non-positive (in particular any input summing to `≤ 0`) fall back to the
default target allocation and the run proceeds. -/
theorem C9_input_validation_amended (usdcPercent wethPercent usdtPercent
    solPercent : Option ℚ) :
    (∃ l, buildTargetAllocation usdcPercent wethPercent usdtPercent
      solPercent = .ok l) ∧
    ((∀ v ∈ usdcPercent, v ≤ 0) → (∀ v ∈ wethPercent, v ≤ 0) →
      (∀ v ∈ usdtPercent, v ≤ 0) → (∀ v ∈ solPercent, v ≤ 0) →
      buildTargetAllocation usdcPercent wethPercent usdtPercent solPercent =
        .ok DEFAULT_TARGET_ALLOCATION) := by
  constructor
  · unfold buildTargetAllocation
    by_cases hempty : (pickAllocationEntry "USDC" usdcPercent ++
        pickAllocationEntry "WETH" wethPercent ++
          pickAllocationEntry "USDT" usdtPercent ++
            pickAllocationEntry "SOL" solPercent).isEmpty
    · rw [if_pos hempty]
      exact ⟨DEFAULT_TARGET_ALLOCATION, rfl⟩
    · rw [if_neg hempty]
      have hpos : ∀ p ∈ pickAllocationEntry "USDC" usdcPercent ++
          pickAllocationEntry "WETH" wethPercent ++
            pickAllocationEntry "USDT" usdtPercent ++
              pickAllocationEntry "SOL" solPercent, 0 < p.2 := by
        intro p hp
        simp only [List.mem_append] at hp
        rcases hp with ((hp | hp) | hp) | hp
        · exact pickAllocationEntry_pos _ _ p hp
        · exact pickAllocationEntry_pos _ _ p hp
        · exact pickAllocationEntry_pos _ _ p hp
        · exact pickAllocationEntry_pos _ _ p hp
      have hne : pickAllocationEntry "USDC" usdcPercent ++
          pickAllocationEntry "WETH" wethPercent ++
            pickAllocationEntry "USDT" usdtPercent ++
              pickAllocationEntry "SOL" solPercent ≠ [] := by
        intro hcontra
        rw [hcontra] at hempty
        exact hempty rfl
      have hsum : 0 < ((pickAllocationEntry "USDC" usdcPercent ++
          pickAllocationEntry "WETH" wethPercent ++
            pickAllocationEntry "USDT" usdtPercent ++
              pickAllocationEntry "SOL" solPercent).map (fun p => p.2)).sum := by
        apply List.sum_pos
        · intro x hx
          obtain ⟨p, hp, hpx⟩ := List.mem_map.mp hx
          rw [← hpx]
          exact hpos p hp
        · simp only [ne_eq, List.map_eq_nil_iff]
          exact hne
      rw [if_neg (not_le.mpr hsum)]
      exact ⟨_, rfl⟩
  · intro hu hw ht hs
    have hzu : pickAllocationEntry "USDC" usdcPercent = [] := by
      cases usdcPercent with
      | none => rfl
      | some v =>
          unfold pickAllocationEntry
          dsimp only
          rw [if_neg (not_lt.mpr (hu v rfl))]
    have hzw : pickAllocationEntry "WETH" wethPercent = [] := by
      cases wethPercent with
      | none => rfl
      | some v =>
          unfold pickAllocationEntry
          dsimp only
          rw [if_neg (not_lt.mpr (hw v rfl))]
    have hzt : pickAllocationEntry "USDT" usdtPercent = [] := by
      cases usdtPercent with
      | none => rfl
      | some v =>
          unfold pickAllocationEntry
          dsimp only
          rw [if_neg (not_lt.mpr (ht v rfl))]
    have hzs : pickAllocationEntry "SOL" solPercent = [] := by
      cases solPercent with
      | none => rfl
      | some v =>
          unfold pickAllocationEntry
          dsimp only
          rw [if_neg (not_lt.mpr (hs v rfl))]
    unfold buildTargetAllocation
    rw [hzu, hzw, hzt, hzs]
    rfl

/-- Witness for the amended C9: zero and absent percentages produce the
default allocation with no error. -/
theorem C9_input_validation_amended_witness :
    buildTargetAllocation (some 0) none (some 0) none =
      .ok DEFAULT_TARGET_ALLOCATION := by
  refine (C9_input_validation_amended (some 0) none (some 0) none).2
    ?_ ?_ ?_ ?_
  · intro v hv
    cases hv
    norm_num
  · intro v hv
    cases hv
  · intro v hv
    cases hv
    norm_num
  · intro v hv
    cases hv
